import Mathlib

/-!
# G-Tune (`src/main/flight/gtune.c`): shallow embedding and verified properties

The C function `calculate_Gtune` is embedded as a pure function on an explicit
state made of the `pidProfile_t` fields it touches and of its four `static`
arrays.  Machine integers are `Int`/`Nat`; every store into a narrower C type
is an explicit two's-complement reduction (`toInt8`, `toInt16`, `toInt32`,
`toUInt8`).
-/

namespace GTune

/-! ## Machine integers -/

/-- Value stored by a conversion to `int8_t` (two's complement reduction). -/
def toInt8 (x : Int) : Int := (x + 128) % 256 - 128

/-- Value stored by a conversion to `int16_t` (two's complement reduction). -/
def toInt16 (x : Int) : Int := (x + 32768) % 65536 - 32768

/-- Value stored by a conversion to `int32_t` (two's complement reduction). -/
def toInt32 (x : Int) : Int := (x + 2147483648) % 4294967296 - 2147483648

/-- Value stored by a conversion to `uint8_t` (reduction modulo 256). -/
def toUInt8 (x : Int) : Nat := (x % 256).toNat

/-! ## Axes and arrays of three -/

/-- Index of a flight-dynamics axis: `FD_ROLL = 0`, `FD_PITCH = 1`, `FD_YAW = 2`
(`common/axis.h`); these are the only in-bounds indices of the arrays of three. -/
inductive Axis where
  | roll
  | pitch
  | yaw
  deriving DecidableEq, Repr

/-- The yaw index `FD_YAW`. -/
def FD_YAW : Axis := Axis.yaw

/-- Store `v` at index `i` of an array of three. -/
def setAt {α : Type} (a : Axis → α) (i : Axis) (v : α) : Axis → α :=
  fun j => if j = i then v else a j

/-! ## Helpers of `common/maths.h` -/

/-- Modelled from the spec: the macro `ABS` of `common/maths.h` (not part of the
sources at hand), the magnitude `|x|` of section 4.3, computed in `int`. -/
def ABS (x : Int) : Int := if x > 0 then x else -x

/-- Modelled from the spec: the function `constrain(amt, low, high)` of
`common/maths.h` (not part of the sources at hand), the clamp of `amt` to
`[low, high]` of section 4.3. -/
def constrain (amt low high : Int) : Int :=
  if amt < low then low else if amt > high then high else amt

/-! ## State -/

/-- The fields of `pidProfile_t` used by G-Tune (all `uint8_t`). -/
structure pidProfile_t where
  P8 : Axis → Nat
  gtune_lolimP : Axis → Nat
  gtune_hilimP : Axis → Nat
  gtune_pwr : Nat

/-- The `static` locals of `calculate_Gtune`: `int8_t time_skip[3]`,
`int16_t OldError[3], result_P64[3]`, `int32_t AvgGyro[3]`. -/
structure Statics where
  time_skip : Axis → Int
  OldError : Axis → Int
  result_P64 : Axis → Int
  AvgGyro : Axis → Int

/-- The globals read by `calculate_Gtune`: `motorCount`, `rcCommand`, the
flight-mode flags tested by `FLIGHT_MODE(ANGLE_MODE)` and
`FLIGHT_MODE(HORIZON_MODE)`, and `gyroData`. -/
structure Env where
  motorCount : Nat
  rcCommand : Axis → Int
  angleMode : Bool
  horizonMode : Bool
  gyroData : Axis → Int

/-- Everything `calculate_Gtune` reads and writes. -/
structure World where
  pid : pidProfile_t
  st : Statics

/-! ## `calculate_Gtune` -/

/-- One iteration of the initialisation loop (lines 101-106) for index `i`. -/
def initAxis (env : Env) (i : Axis) (w : World) : World :=
  let hilim :=
    if (w.pid.gtune_hilimP i ≠ 0 ∧ w.pid.gtune_lolimP i > w.pid.gtune_hilimP i) ∨
        (env.motorCount < 4 ∧ i = FD_YAW)
    then setAt w.pid.gtune_hilimP i 0 else w.pid.gtune_hilimP
  let P8 :=
    if w.pid.P8 i < w.pid.gtune_lolimP i
    then setAt w.pid.P8 i (w.pid.gtune_lolimP i) else w.pid.P8
  { pid := { w.pid with gtune_hilimP := hilim, P8 := P8 }
    st := { w.st with
      result_P64 := setAt w.st.result_P64 i (toInt16 ((P8 i : Int) * 64))
      OldError := setAt w.st.OldError i 0
      time_skip := setAt w.st.time_skip i (-125) } }

/-- The initialisation pass (lines 99-107): the loop over `i = 0, 1, 2`. -/
def initRun (env : Env) (w : World) : World :=
  [Axis.roll, Axis.pitch, Axis.yaw].foldl (fun acc i => initAxis env i acc) w

/-- The blocking test of line 111. -/
def blocked (env : Env) (ax : Axis) : Bool :=
  decide (env.rcCommand ax ≠ 0) || (decide (ax ≠ FD_YAW) && (env.angleMode || env.horizonMode))

/-- The blocked branch (lines 113-114). -/
def blockReset (ax : Axis) (w : World) : World :=
  { w with st := { w.st with
      OldError := setAt w.st.OldError ax 0
      time_skip := setAt w.st.time_skip ax (-125) } }

/-- The quantised sample added to the accumulator (lines 122-123);
the division truncates toward zero. -/
def chop (ax : Axis) (env : Env) : Int :=
  if ax = FD_YAW then 32 * ((toInt16 (env.gyroData ax)).tdiv 32)
  else 128 * ((toInt16 (env.gyroData ax)).tdiv 128)

/-- Lines 118-124: clear the accumulator at the start of a window, count the
tick, and fold the sample in while the counter is positive. -/
def accumulate (ax : Axis) (env : Env) (st : Statics) : Statics :=
  let avg0 := if st.time_skip ax = 0 then 0 else st.AvgGyro ax
  let ts := toInt8 (st.time_skip ax + 1)
  let avg1 := if ts > 0 then toInt32 (avg0 + chop ax env) else avg0
  { st with time_skip := setAt st.time_skip ax ts, AvgGyro := setAt st.AvgGyro ax avg1 }

/-- The threshold `threshP` (lines 133, 138). -/
def threshP (ax : Axis) : Int := if ax = FD_YAW then 20 else 10

/-- The averaged accumulator after `AvgGyro[ax] /= time_skip[ax]` (line 128). -/
def average (ax : Axis) (st : Statics) : Int :=
  toInt32 ((st.AvgGyro ax).tdiv (st.time_skip ax))

/-- The `int16_t error` of lines 134 and 139, from the averaged accumulator. -/
def errorOf (ax : Axis) (avg : Int) : Int :=
  if ax = FD_YAW then toInt16 (toInt32 (-avg)) else toInt16 avg

/-- The test of line 142 that lets the gain adjuster run. -/
def gate (hilim : Nat) (error old : Int) : Bool :=
  decide (hilim ≠ 0) && decide (error ≠ 0) && decide (old ≠ 0) && decide (error ≠ old)

/-- The `int16_t diff_G` of line 144. -/
def diffG (error old : Int) : Int := toInt16 (ABS error - ABS old)

/-- Lines 145-160: the step applied to `result_P64[ax]` before clamping. -/
def stepP64 (ax : Axis) (pwr : Nat) (error old p64 : Int) : Int :=
  let diff_G := diffG error old
  if (error > 0 ∧ old > 0) ∨ (error < 0 ∧ old < 0) then
    if diff_G > threshP ax then toInt16 (p64 + (64 + (pwr : Int)))
    else if diff_G < -threshP ax then
      if ax = FD_YAW then toInt16 (p64 - (64 + (pwr : Int)))
      else toInt16 (p64 - 32)
    else p64
  else
    if ABS diff_G > threshP ax ∧ ax ≠ FD_YAW then toInt16 (p64 - 32) else p64

/-- Lines 144-162: the gain adjuster, run when `gate` holds. -/
def adjust (ax : Axis) (error : Int) (w : World) : World :=
  let p64 := stepP64 ax w.pid.gtune_pwr error (w.st.OldError ax) (w.st.result_P64 ax)
  let r := toInt16 (constrain p64 ((w.pid.gtune_lolimP ax : Int) * 64)
    ((w.pid.gtune_hilimP ax : Int) * 64))
  { pid := { w.pid with P8 := setAt w.pid.P8 ax (toUInt8 (r >>> (6 : Nat))) }
    st := { w.st with result_P64 := setAt w.st.result_P64 ax r } }

/-- Lines 128-164: the evaluation of a completed window. -/
def finalize (ax : Axis) (w : World) : World :=
  let avg := average ax w.st
  let w1 : World := { w with st := { w.st with
      AvgGyro := setAt w.st.AvgGyro ax avg
      time_skip := setAt w.st.time_skip ax 0 } }
  let error := errorOf ax avg
  let w2 := if gate (w1.pid.gtune_hilimP ax) error (w1.st.OldError ax) then adjust ax error w1
    else w1
  { w2 with st := { w2.st with OldError := setAt w2.st.OldError ax error } }

/-- The steady-state branch when tuning is not blocked (lines 118-165). -/
def tuneTick (ax : Axis) (env : Env) (w : World) : World :=
  let w1 : World := { w with st := accumulate ax env w.st }
  if w1.st.time_skip ax = 16 then finalize ax w1 else w1

/-- The function `calculate_Gtune(inirun, ax, pidProfile)`. -/
def calculate_Gtune (inirun : Bool) (ax : Axis) (env : Env) (w : World) : World :=
  if inirun then initRun env w
  else if blocked env ax then blockReset ax w
  else tuneTick ax env w

/-! ## Predicates naming the path a steady-state tick takes -/

/-- The error of the window a tick completes: `error` of lines 134/139 as
computed from the state before the tick and this tick's sample. -/
def windowError (ax : Axis) (env : Env) (w : World) : Int :=
  errorOf ax (average ax (accumulate ax env w.st))

/-- The tick folds its sample into the accumulator (test of line 120). -/
def foldsSample (ax : Axis) (env : Env) (w : World) : Prop :=
  blocked env ax = false ∧ (accumulate ax env w.st).time_skip ax > 0

/-- The tick finalises a window (not blocked, and the test of line 126 holds). -/
def completesWindow (ax : Axis) (env : Env) (w : World) : Prop :=
  blocked env ax = false ∧ (accumulate ax env w.st).time_skip ax = 16

/-- The tick runs the gain adjuster (it finalises a window and line 142 holds). -/
def runsAdjuster (ax : Axis) (env : Env) (w : World) : Prop :=
  completesWindow ax env w ∧
    gate (w.pid.gtune_hilimP ax) (windowError ax env w) (w.st.OldError ax) = true

/-- The profile fields hold `uint8_t` values. -/
def pidProfile_t.inRange (p : pidProfile_t) : Prop :=
  (∀ i, p.P8 i < 256) ∧ (∀ i, p.gtune_lolimP i < 256) ∧ (∀ i, p.gtune_hilimP i < 256) ∧
    p.gtune_pwr < 256

/-! ## Sequences of calls -/

/-- A sequence of steady-state ticks, each on its own axis with its own inputs. -/
def runTicks (ticks : List (Axis × Env)) (w : World) : World :=
  ticks.foldl (fun acc t => calculate_Gtune false t.1 t.2 acc) w

/-- A sequence of calls of either kind: `(inirun, ax, globals)`. -/
def runCalls (calls : List (Bool × Axis × Env)) (w : World) : World :=
  calls.foldl (fun acc c => calculate_Gtune c.1 c.2.1 c.2.2 acc) w

/-- Consecutive steady-state ticks on one axis, one per element of `envs`. -/
def runAxis (ax : Axis) (envs : List Env) (w : World) : World :=
  runTicks (envs.map (fun e => (ax, e))) w

/-! ## Concrete states used to exercise the theorems -/

/-- Globals of a quadcopter in acro mode with centred sticks and a still gyro. -/
def quietEnv : Env :=
  { motorCount := 4, rcCommand := fun _ => 0, angleMode := false, horizonMode := false,
    gyroData := fun _ => 0 }

/-- The default limits of the header comment (`lolimP = 20`, `hilimP = 70`,
`pwr = 0`) with visible gain `p` on every axis. -/
def defaultProfile (p : Nat) : pidProfile_t :=
  { P8 := fun _ => p, gtune_lolimP := fun _ => 20, gtune_hilimP := fun _ => 70, gtune_pwr := 0 }

/-- Statics one tick before the end of a window: counter `15`, accumulator `acc`,
previous error `old`, fixed-point gain `p64`, on every axis. -/
def lateWindow (acc old p64 : Int) : Statics :=
  { time_skip := fun _ => 15, OldError := fun _ => old, result_P64 := fun _ => p64,
    AvgGyro := fun _ => acc }

/-- The zero-initialised statics of a fresh program. -/
def zeroStatics : Statics :=
  { time_skip := fun _ => 0, OldError := fun _ => 0, result_P64 := fun _ => 0,
    AvgGyro := fun _ => 0 }

/-- Globals of `quietEnv` with gyro reading `g` on every axis. -/
def gyroEnv (g : Int) : Env :=
  { quietEnv with gyroData := fun _ => g }

/-- The quantisation step of lines 122-123: 32 on yaw, 128 on roll and pitch. -/
def grain (ax : Axis) : Int := if ax = FD_YAW then 32 else 128

/-- The truncated quotient `(int16_t)gyroData[ax] / grain` of lines 122-123. -/
def quant (ax : Axis) (env : Env) : Int := (toInt16 (env.gyroData ax)).tdiv (grain ax)

/-- Sum of the quantised samples of a list of ticks on `ax`. -/
def chopSum (ax : Axis) (envs : List Env) : Int := (envs.map (chop ax)).sum

/-- Invariant of the accumulator entries of one axis between calls: the counter stays in
`[-125, 15]`, the accumulator within `16 * 32768`, and inside a window (counter
positive) within `32768 * time_skip` and a multiple of the quantisation step; the
previous error is an `int16_t` multiple of that step divided by the window length. -/
def AccInv (st : Statics) (ax : Axis) : Prop :=
  -125 ≤ st.time_skip ax ∧ st.time_skip ax ≤ 15 ∧
    -524288 ≤ st.AvgGyro ax ∧ st.AvgGyro ax ≤ 524288 ∧
    (0 < st.time_skip ax →
      -32768 * st.time_skip ax ≤ st.AvgGyro ax ∧ st.AvgGyro ax ≤ 32768 * st.time_skip ax ∧
        st.AvgGyro ax % grain ax = 0) ∧
    -32768 ≤ st.OldError ax ∧ st.OldError ax ≤ 32767 ∧
    st.OldError ax % (if ax = Axis.yaw then 2 else 8) = 0

/-- Invariant of the gains once an initialisation pass has run on a `uint8_t` profile:
the profile stays in range, and on every axis `result_P64` lies in `[0, 255*64]` and `P8`
is `result_P64 >> 6`. -/
def GainInv (w : World) : Prop :=
  w.pid.inRange ∧
    ∀ i, 0 ≤ w.st.result_P64 i ∧ w.st.result_P64 i ≤ 255 * 64 ∧
      (w.pid.P8 i : Int) = w.st.result_P64 i >>> (6 : Nat)

/-- Globals with a deflected stick: `rcCommand = 100` on every axis. -/
def stickEnv : Env :=
  { quietEnv with rcCommand := fun _ => 100 }

/-- Invariant of the `n` ticks that follow a blocked tick on `ax`: for some `j <= n`
(the unblocked ticks since the last block), either the first window is still open
(`j < 141`, counter `j - 125`, previous error 0) or it has been completed and the second
one is open (counter `j - 141`). -/
def SettleInv (n : Nat) (st : Statics) (ax : Axis) : Prop :=
  ∃ j : Nat, j ≤ n ∧
    ((j < 141 ∧ st.time_skip ax = (j : Int) - 125 ∧ st.OldError ax = 0) ∨
      (141 ≤ j ∧ st.time_skip ax = (j : Int) - 141))

/-- A run of 157 unblocked ticks: settle time and first window with gyro reading 128,
then a second window with gyro reading 1280. -/
def settleRun : List Env :=
  List.replicate 125 (gyroEnv 128) ++ (List.replicate 15 (gyroEnv 128) ++ [gyroEnv 128]) ++
    (List.replicate 15 (gyroEnv 1280) ++ [gyroEnv 1280])

/-! ## Basic lemmas -/

@[simp] theorem setAt_same {α : Type} (a : Axis → α) (i : Axis) (v : α) :
    setAt a i v i = v := by
  simp [setAt]

theorem setAt_ne {α : Type} (a : Axis → α) {i j : Axis} (v : α) (h : j ≠ i) :
    setAt a i v j = a j := by
  simp [setAt, h]

theorem toInt16_of_range {x : Int} (h1 : -32768 ≤ x) (h2 : x ≤ 32767) : toInt16 x = x := by
  unfold toInt16; omega

theorem toInt16_range (x : Int) : -32768 ≤ toInt16 x ∧ toInt16 x ≤ 32767 := by
  unfold toInt16; omega

theorem constrain_range (amt : Int) {low high : Int} (h : low ≤ high) :
    low ≤ constrain amt low high ∧ constrain amt low high ≤ high := by
  unfold constrain; split_ifs <;> omega

theorem shr6_eq (x : Int) : x >>> (6 : Nat) = x / 64 := by
  rw [Int.shiftRight_eq_div_pow]; norm_num

theorem toUInt8_shr6 {x : Int} {lo hi : Nat} (h1 : (lo : Int) * 64 ≤ x) (h2 : x ≤ (hi : Int) * 64)
    (hhi : hi < 256) : lo ≤ toUInt8 (x >>> (6 : Nat)) ∧ toUInt8 (x >>> (6 : Nat)) ≤ hi := by
  rw [shr6_eq]; unfold toUInt8; omega

@[simp] theorem accumulate_OldError (ax : Axis) (env : Env) (st : Statics) :
    (accumulate ax env st).OldError = st.OldError := rfl

@[simp] theorem accumulate_result_P64 (ax : Axis) (env : Env) (st : Statics) :
    (accumulate ax env st).result_P64 = st.result_P64 := rfl

theorem tick_blocked {ax : Axis} {env : Env} (w : World) (h : blocked env ax = true) :
    calculate_Gtune false ax env w = blockReset ax w := by
  simp [calculate_Gtune, h]

theorem tick_unblocked {ax : Axis} {env : Env} (w : World) (h : blocked env ax = false) :
    calculate_Gtune false ax env w = tuneTick ax env w := by
  simp [calculate_Gtune, h]

theorem tick_completesWindow {ax : Axis} {env : Env} {w : World}
    (h : completesWindow ax env w) :
    calculate_Gtune false ax env w = finalize ax { w with st := accumulate ax env w.st } := by
  rw [tick_unblocked w h.1]
  simp only [tuneTick, h.2, if_true]

/-- State left by a tick that runs the gain adjuster: the clamped stepped gain
is stored in `result_P64[ax]` and its top bits in `P8[ax]`. -/
theorem tick_runsAdjuster {ax : Axis} {env : Env} {w : World} (h : runsAdjuster ax env w) :
    (calculate_Gtune false ax env w).st.result_P64 ax =
        toInt16 (constrain
          (stepP64 ax w.pid.gtune_pwr (windowError ax env w) (w.st.OldError ax)
            (w.st.result_P64 ax))
          ((w.pid.gtune_lolimP ax : Int) * 64) ((w.pid.gtune_hilimP ax : Int) * 64)) ∧
      (calculate_Gtune false ax env w).pid.P8 ax =
        toUInt8 ((calculate_Gtune false ax env w).st.result_P64 ax >>> (6 : Nat)) := by
  obtain ⟨⟨hb, hw⟩, hg⟩ := h
  rw [tick_completesWindow ⟨hb, hw⟩]
  simp only [windowError] at hg ⊢
  simp only [finalize, accumulate_OldError, hg, if_true, adjust, setAt_same, accumulate_result_P64,
    and_self]

/-- Bounds left by a tick that runs the gain adjuster, for any prior state. -/
theorem runsAdjuster_bounds {ax : Axis} {env : Env} {w : World}
    (hu8 : w.pid.gtune_hilimP ax < 256)
    (hle : w.pid.gtune_lolimP ax ≤ w.pid.gtune_hilimP ax)
    (hrun : runsAdjuster ax env w) :
    (w.pid.gtune_lolimP ax : Int) * 64 ≤ (calculate_Gtune false ax env w).st.result_P64 ax ∧
      (calculate_Gtune false ax env w).st.result_P64 ax ≤ (w.pid.gtune_hilimP ax : Int) * 64 ∧
      w.pid.gtune_lolimP ax ≤ (calculate_Gtune false ax env w).pid.P8 ax ∧
      (calculate_Gtune false ax env w).pid.P8 ax ≤ w.pid.gtune_hilimP ax := by
  obtain ⟨hr, hp⟩ := tick_runsAdjuster hrun
  have hlh : (w.pid.gtune_lolimP ax : Int) * 64 ≤ (w.pid.gtune_hilimP ax : Int) * 64 := by omega
  have hc := constrain_range
    (stepP64 ax w.pid.gtune_pwr (windowError ax env w) (w.st.OldError ax) (w.st.result_P64 ax))
    hlh
  rw [toInt16_of_range (by omega) (by omega)] at hr
  have hb : (w.pid.gtune_lolimP ax : Int) * 64 ≤ (calculate_Gtune false ax env w).st.result_P64 ax ∧
      (calculate_Gtune false ax env w).st.result_P64 ax ≤ (w.pid.gtune_hilimP ax : Int) * 64 := by
    rw [hr]; exact hc
  have hq := toUInt8_shr6 hb.1 hb.2 hu8
  rw [hp]
  exact ⟨hb.1, hb.2, hq.1, hq.2⟩

/-! ### The initialisation pass, field by field -/

theorem initAxis_lolim (env : Env) (i : Axis) (w : World) :
    (initAxis env i w).pid.gtune_lolimP = w.pid.gtune_lolimP := rfl

theorem initAxis_hilim (env : Env) (i j : Axis) (w : World) :
    (initAxis env i w).pid.gtune_hilimP j =
      if j = i ∧ ((w.pid.gtune_hilimP i ≠ 0 ∧ w.pid.gtune_lolimP i > w.pid.gtune_hilimP i) ∨
          (env.motorCount < 4 ∧ i = FD_YAW)) then 0 else w.pid.gtune_hilimP j := by
  simp only [initAxis]
  by_cases hc : (w.pid.gtune_hilimP i ≠ 0 ∧ w.pid.gtune_lolimP i > w.pid.gtune_hilimP i) ∨
      (env.motorCount < 4 ∧ i = FD_YAW)
  · by_cases hj : j = i <;> simp [hc, hj, setAt]
  · simp [hc]

theorem initAxis_P8 (env : Env) (i j : Axis) (w : World) :
    (initAxis env i w).pid.P8 j =
      if j = i then max (w.pid.P8 i) (w.pid.gtune_lolimP i) else w.pid.P8 j := by
  simp only [initAxis]
  by_cases hc : w.pid.P8 i < w.pid.gtune_lolimP i
  · by_cases hj : j = i
    · simp [hc, hj, setAt]; omega
    · simp [hc, hj, setAt]
  · by_cases hj : j = i
    · subst hj; simp [hc]; omega
    · simp [hc, hj]

theorem initAxis_result_P64 (env : Env) (i j : Axis) (w : World) :
    (initAxis env i w).st.result_P64 j =
      if j = i then toInt16 (((initAxis env i w).pid.P8 i : Nat) * 64) else w.st.result_P64 j := by
  by_cases hj : j = i <;> simp [initAxis, hj, setAt]

theorem initAxis_OldError (env : Env) (i j : Axis) (w : World) :
    (initAxis env i w).st.OldError j = if j = i then 0 else w.st.OldError j := by
  by_cases hj : j = i <;> simp [initAxis, hj, setAt]

theorem initAxis_time_skip (env : Env) (i j : Axis) (w : World) :
    (initAxis env i w).st.time_skip j = if j = i then -125 else w.st.time_skip j := by
  by_cases hj : j = i <;> simp [initAxis, hj, setAt]

theorem initRun_eq (env : Env) (w : World) :
    initRun env w =
      initAxis env Axis.yaw (initAxis env Axis.pitch (initAxis env Axis.roll w)) := rfl

theorem initRun_lolim (env : Env) (w : World) :
    (initRun env w).pid.gtune_lolimP = w.pid.gtune_lolimP := rfl

theorem initRun_pwr (env : Env) (w : World) :
    (initRun env w).pid.gtune_pwr = w.pid.gtune_pwr := rfl

theorem initRun_AvgGyro (env : Env) (w : World) :
    (initRun env w).st.AvgGyro = w.st.AvgGyro := rfl

theorem initRun_hilim (env : Env) (w : World) (i : Axis) :
    (initRun env w).pid.gtune_hilimP i =
      if (w.pid.gtune_hilimP i ≠ 0 ∧ w.pid.gtune_lolimP i > w.pid.gtune_hilimP i) ∨
          (env.motorCount < 4 ∧ i = FD_YAW) then 0 else w.pid.gtune_hilimP i := by
  rw [initRun_eq]
  cases i <;> simp [initAxis_hilim, initAxis_lolim, FD_YAW]

theorem initRun_P8 (env : Env) (w : World) (i : Axis) :
    (initRun env w).pid.P8 i = max (w.pid.P8 i) (w.pid.gtune_lolimP i) := by
  rw [initRun_eq]
  cases i <;> simp [initAxis_P8, initAxis_lolim]

theorem initRun_result_P64 (env : Env) (w : World) (i : Axis) :
    (initRun env w).st.result_P64 i =
      toInt16 ((max (w.pid.P8 i) (w.pid.gtune_lolimP i) : Nat) * 64) := by
  rw [initRun_eq]
  cases i <;> simp [initAxis_result_P64, initAxis_P8, initAxis_lolim]

theorem initRun_OldError (env : Env) (w : World) (i : Axis) :
    (initRun env w).st.OldError i = 0 := by
  rw [initRun_eq]
  cases i <;> simp [initAxis_OldError]

theorem initRun_time_skip (env : Env) (w : World) (i : Axis) :
    (initRun env w).st.time_skip i = -125 := by
  rw [initRun_eq]
  cases i <;> simp [initAxis_time_skip]

theorem World.ext_fields {a b : World}
    (h1 : ∀ i, a.pid.P8 i = b.pid.P8 i)
    (h2 : ∀ i, a.pid.gtune_lolimP i = b.pid.gtune_lolimP i)
    (h3 : ∀ i, a.pid.gtune_hilimP i = b.pid.gtune_hilimP i)
    (h4 : a.pid.gtune_pwr = b.pid.gtune_pwr)
    (h5 : ∀ i, a.st.time_skip i = b.st.time_skip i)
    (h6 : ∀ i, a.st.OldError i = b.st.OldError i)
    (h7 : ∀ i, a.st.result_P64 i = b.st.result_P64 i)
    (h8 : ∀ i, a.st.AvgGyro i = b.st.AvgGyro i) : a = b := by
  obtain ⟨⟨a1, a2, a3, a4⟩, ⟨a5, a6, a7, a8⟩⟩ := a
  obtain ⟨⟨b1, b2, b3, b4⟩, ⟨b5, b6, b7, b8⟩⟩ := b
  simp only at h1 h2 h3 h4 h5 h6 h7 h8
  have e1 : a1 = b1 := funext h1
  have e2 : a2 = b2 := funext h2
  have e3 : a3 = b3 := funext h3
  have e5 : a5 = b5 := funext h5
  have e6 : a6 = b6 := funext h6
  have e7 : a7 = b7 := funext h7
  have e8 : a8 = b8 := funext h8
  subst e1 e2 e3 h4 e5 e6 e7 e8
  rfl

theorem blocked_iff (env : Env) (ax : Axis) :
    blocked env ax = true ↔
      (env.rcCommand ax ≠ 0 ∨
        (ax ≠ Axis.yaw ∧ (env.angleMode = true ∨ env.horizonMode = true))) := by
  simp [blocked, FD_YAW]

theorem defaultProfile_inRange {p : Nat} (hp : p < 256) : (defaultProfile p).inRange :=
  ⟨fun _ => hp, fun _ => by simp [defaultProfile], fun _ => by simp [defaultProfile],
    by simp [defaultProfile]⟩

/-! ### One steady-state tick, field by field -/

theorem finalize_limits (ax : Axis) (w : World) :
    (finalize ax w).pid.gtune_lolimP = w.pid.gtune_lolimP ∧
      (finalize ax w).pid.gtune_hilimP = w.pid.gtune_hilimP ∧
      (finalize ax w).pid.gtune_pwr = w.pid.gtune_pwr := by
  simp only [finalize]
  split_ifs <;> simp [adjust]

theorem tick_limits (ax : Axis) (env : Env) (w : World) :
    (calculate_Gtune false ax env w).pid.gtune_lolimP = w.pid.gtune_lolimP ∧
      (calculate_Gtune false ax env w).pid.gtune_hilimP = w.pid.gtune_hilimP ∧
      (calculate_Gtune false ax env w).pid.gtune_pwr = w.pid.gtune_pwr := by
  cases hb : blocked env ax
  · rw [tick_unblocked w hb]
    simp only [tuneTick]
    split_ifs
    · exact finalize_limits ax _
    · exact ⟨rfl, rfl, rfl⟩
  · rw [tick_blocked w hb]
    exact ⟨rfl, rfl, rfl⟩

/-- A tick that does not run the gain adjuster leaves the profile and `result_P64` as
they were. -/
theorem tick_gain_unchanged {ax : Axis} {env : Env} {w : World} (h : ¬ runsAdjuster ax env w) :
    (calculate_Gtune false ax env w).pid = w.pid ∧
      (calculate_Gtune false ax env w).st.result_P64 = w.st.result_P64 := by
  cases hb : blocked env ax
  · rw [tick_unblocked w hb]
    by_cases hw : (accumulate ax env w.st).time_skip ax = 16
    · have hg : gate (w.pid.gtune_hilimP ax) (windowError ax env w) (w.st.OldError ax) = false := by
        by_contra hg
        exact h ⟨⟨hb, hw⟩, by simpa using hg⟩
      simp only [windowError] at hg
      simp [tuneTick, hw, finalize, hg]
    · simp [tuneTick, hw]
  · rw [tick_blocked w hb]
    exact ⟨rfl, rfl⟩

/-- A tick on `ax` leaves the entries of every other axis as they were. -/
theorem tick_other_axis (ax : Axis) (env : Env) (w : World) {j : Axis} (hj : j ≠ ax) :
    (calculate_Gtune false ax env w).pid.P8 j = w.pid.P8 j ∧
      (calculate_Gtune false ax env w).st.time_skip j = w.st.time_skip j ∧
      (calculate_Gtune false ax env w).st.OldError j = w.st.OldError j ∧
      (calculate_Gtune false ax env w).st.result_P64 j = w.st.result_P64 j ∧
      (calculate_Gtune false ax env w).st.AvgGyro j = w.st.AvgGyro j := by
  cases hb : blocked env ax
  · rw [tick_unblocked w hb]
    simp only [tuneTick, finalize, adjust, accumulate]
    split_ifs <;> simp [setAt, hj]
  · rw [tick_blocked w hb]
    simp [blockReset, setAt, hj]

/-- Counter after an unblocked tick. -/
theorem tuneTick_time_skip (ax : Axis) (env : Env) (w : World) :
    (tuneTick ax env w).st.time_skip ax =
      if toInt8 (w.st.time_skip ax + 1) = 16 then 0 else toInt8 (w.st.time_skip ax + 1) := by
  simp only [tuneTick, finalize, adjust, accumulate]
  split_ifs <;> simp_all

/-- Previous error after an unblocked tick. -/
theorem tuneTick_OldError (ax : Axis) (env : Env) (w : World) :
    (tuneTick ax env w).st.OldError ax =
      if toInt8 (w.st.time_skip ax + 1) = 16 then windowError ax env w else w.st.OldError ax := by
  simp only [tuneTick, finalize, adjust, windowError]
  split_ifs <;> simp_all [accumulate]

theorem accumulate_time_skip (ax : Axis) (env : Env) (st : Statics) :
    (accumulate ax env st).time_skip ax = toInt8 (st.time_skip ax + 1) := by
  simp [accumulate]

/-! ### The adjuster arithmetic -/

theorem ABS_eq_abs (x : Int) : ABS x = |x| := by
  unfold ABS
  split_ifs with h
  · exact (abs_of_pos h).symm
  · exact (abs_of_nonpos (by omega)).symm

theorem errorOf_range (ax : Axis) (avg : Int) :
    -32768 ≤ errorOf ax avg ∧ errorOf ax avg ≤ 32767 := by
  unfold errorOf
  split_ifs <;> exact toInt16_range _

theorem diffG_eq {error old : Int} (he : -32768 ≤ error ∧ error ≤ 32767)
    (ho : -32768 ≤ old ∧ old ≤ 32767) (ho0 : old ≠ 0) :
    diffG error old = |error| - |old| := by
  unfold diffG
  rw [ABS_eq_abs, ABS_eq_abs]
  apply toInt16_of_range
  · rcases abs_cases error with ⟨h1, _⟩ | ⟨h1, _⟩ <;>
      rcases abs_cases old with ⟨h2, _⟩ | ⟨h2, _⟩ <;> omega
  · rcases abs_cases error with ⟨h1, _⟩ | ⟨h1, _⟩ <;>
      rcases abs_cases old with ⟨h2, _⟩ | ⟨h2, _⟩ <;> omega

theorem threshP_eq (ax : Axis) : threshP ax = if ax = Axis.yaw then 20 else 10 := rfl

theorem constrain_between (amt : Int) {low high : Int} (hl : 0 ≤ low) (hh : 0 ≤ high)
    (hl2 : low ≤ 16320) (hh2 : high ≤ 16320) :
    0 ≤ constrain amt low high ∧ constrain amt low high ≤ 16320 := by
  unfold constrain; split_ifs <;> omega

/-- With `uint8_t` limits the clamped value is stored and shifted without loss. -/
theorem tick_runsAdjuster_exact {ax : Axis} {env : Env} {w : World} (hr : w.pid.inRange)
    (h : runsAdjuster ax env w) :
    (calculate_Gtune false ax env w).st.result_P64 ax =
        constrain
          (stepP64 ax w.pid.gtune_pwr (windowError ax env w) (w.st.OldError ax)
            (w.st.result_P64 ax))
          ((w.pid.gtune_lolimP ax : Int) * 64) ((w.pid.gtune_hilimP ax : Int) * 64) ∧
      ((calculate_Gtune false ax env w).pid.P8 ax : Int) =
        (calculate_Gtune false ax env w).st.result_P64 ax >>> (6 : Nat) := by
  obtain ⟨h1, h2⟩ := tick_runsAdjuster h
  obtain ⟨-, hlo, hhi, -⟩ := hr
  have hlo := hlo ax
  have hhi := hhi ax
  have hl0 : (0 : Int) ≤ (w.pid.gtune_lolimP ax : Int) * 64 := by omega
  have hh0 : (0 : Int) ≤ (w.pid.gtune_hilimP ax : Int) * 64 := by omega
  have hl1 : (w.pid.gtune_lolimP ax : Int) * 64 ≤ 16320 := by omega
  have hh1 : (w.pid.gtune_hilimP ax : Int) * 64 ≤ 16320 := by omega
  have hc := constrain_between
    (stepP64 ax w.pid.gtune_pwr (windowError ax env w) (w.st.OldError ax) (w.st.result_P64 ax))
    hl0 hh0 hl1 hh1
  rw [toInt16_of_range (by omega) (by omega)] at h1
  refine ⟨h1, ?_⟩
  rw [h2, h1, shr6_eq]
  unfold toUInt8
  omega

theorem windowError_range (ax : Axis) (env : Env) (w : World) :
    -32768 ≤ windowError ax env w ∧ windowError ax env w ≤ 32767 :=
  errorOf_range ax _

/-- Step taken on a same-sign evaluation whose magnitude grew past the threshold. -/
theorem stepP64_grow {ax : Axis} {pwr : Nat} {error old p64 : Int}
    (he : -32768 ≤ error ∧ error ≤ 32767) (ho : -32768 ≤ old ∧ old ≤ 32767)
    (hs : (0 < error ∧ 0 < old) ∨ (error < 0 ∧ old < 0))
    (hg : |error| - |old| > (if ax = Axis.yaw then 20 else 10)) :
    stepP64 ax pwr error old p64 = toInt16 (p64 + (64 + (pwr : Int))) := by
  have ho0 : old ≠ 0 := by omega
  have hd := diffG_eq he ho ho0
  simp only [stepP64, hd, threshP_eq]
  rw [if_pos (by omega), if_pos hg]

/-- Step taken on a same-sign evaluation whose magnitude shrank past the threshold. -/
theorem stepP64_shrink {ax : Axis} {pwr : Nat} {error old p64 : Int}
    (he : -32768 ≤ error ∧ error ≤ 32767) (ho : -32768 ≤ old ∧ old ≤ 32767)
    (hs : (0 < error ∧ 0 < old) ∨ (error < 0 ∧ old < 0))
    (hg : |error| - |old| < -(if ax = Axis.yaw then 20 else 10)) :
    stepP64 ax pwr error old p64 =
      if ax = Axis.yaw then toInt16 (p64 - (64 + (pwr : Int))) else toInt16 (p64 - 32) := by
  have ho0 : old ≠ 0 := by omega
  have hd := diffG_eq he ho ho0
  simp only [stepP64, hd, threshP_eq, FD_YAW]
  rw [if_pos (by omega), if_neg (by split_ifs at hg ⊢ <;> omega), if_pos hg]

/-! ### Sequences of calls -/

theorem runTicks_nil (w : World) : runTicks [] w = w := rfl

theorem runTicks_cons (t : Axis × Env) (ticks : List (Axis × Env)) (w : World) :
    runTicks (t :: ticks) w = runTicks ticks (calculate_Gtune false t.1 t.2 w) := rfl

theorem runTicks_append (a b : List (Axis × Env)) (w : World) :
    runTicks (a ++ b) w = runTicks b (runTicks a w) := by
  simp [runTicks, List.foldl_append]

theorem runAxis_snoc (ax : Axis) (envs : List Env) (e : Env) (w : World) :
    runAxis ax (envs ++ [e]) w = calculate_Gtune false ax e (runAxis ax envs w) := by
  simp [runAxis, runTicks, List.foldl_append]

theorem runTicks_limits (ticks : List (Axis × Env)) (w : World) :
    (runTicks ticks w).pid.gtune_lolimP = w.pid.gtune_lolimP ∧
      (runTicks ticks w).pid.gtune_hilimP = w.pid.gtune_hilimP ∧
      (runTicks ticks w).pid.gtune_pwr = w.pid.gtune_pwr := by
  induction ticks generalizing w with
  | nil => exact ⟨rfl, rfl, rfl⟩
  | cons t ticks ih =>
    rw [runTicks_cons]
    obtain ⟨h1, h2, h3⟩ := ih (calculate_Gtune false t.1 t.2 w)
    obtain ⟨g1, g2, g3⟩ := tick_limits t.1 t.2 w
    exact ⟨h1.trans g1, h2.trans g2, h3.trans g3⟩

theorem not_runsAdjuster_of_hilim_zero {ax : Axis} (env : Env) {w : World}
    (h : w.pid.gtune_hilimP ax = 0) : ¬ runsAdjuster ax env w := by
  simp [runsAdjuster, gate, h]

theorem not_runsAdjuster_of_OldError_zero {ax : Axis} (env : Env) {w : World}
    (h : w.st.OldError ax = 0) : ¬ runsAdjuster ax env w := by
  simp [runsAdjuster, gate, h]

/-- One tick keeps `result_P64[ax]` above `lolim*64` and below `hilim*64`, once there. -/
theorem tick_keeps_bounds (a : Axis) (e : Env) (w : World) (ax : Axis)
    (hu8 : w.pid.gtune_hilimP ax < 256)
    (hle : w.pid.gtune_lolimP ax ≤ w.pid.gtune_hilimP ax) :
    ((w.pid.gtune_lolimP ax : Int) * 64 ≤ w.st.result_P64 ax →
        (w.pid.gtune_lolimP ax : Int) * 64 ≤ (calculate_Gtune false a e w).st.result_P64 ax) ∧
      (w.st.result_P64 ax ≤ (w.pid.gtune_hilimP ax : Int) * 64 →
        (calculate_Gtune false a e w).st.result_P64 ax ≤ (w.pid.gtune_hilimP ax : Int) * 64) := by
  by_cases ha : ax = a
  · subst ha
    by_cases hrun : runsAdjuster ax e w
    · obtain ⟨h1, h2, -, -⟩ := runsAdjuster_bounds hu8 hle hrun
      exact ⟨fun _ => h1, fun _ => h2⟩
    · rw [(tick_gain_unchanged hrun).2]
      exact ⟨id, id⟩
  · rw [(tick_other_axis a e w ha).2.2.2.1]
    exact ⟨id, id⟩

theorem runTicks_keeps_bounds (ticks : List (Axis × Env)) (w : World) (ax : Axis)
    (hu8 : w.pid.gtune_hilimP ax < 256)
    (hle : w.pid.gtune_lolimP ax ≤ w.pid.gtune_hilimP ax) :
    ((w.pid.gtune_lolimP ax : Int) * 64 ≤ w.st.result_P64 ax →
        (w.pid.gtune_lolimP ax : Int) * 64 ≤ (runTicks ticks w).st.result_P64 ax) ∧
      (w.st.result_P64 ax ≤ (w.pid.gtune_hilimP ax : Int) * 64 →
        (runTicks ticks w).st.result_P64 ax ≤ (w.pid.gtune_hilimP ax : Int) * 64) := by
  induction ticks generalizing w with
  | nil => exact ⟨id, id⟩
  | cons t ticks ih =>
    rw [runTicks_cons]
    obtain ⟨g1, g2, -⟩ := tick_limits t.1 t.2 w
    have ih1 := ih (calculate_Gtune false t.1 t.2 w) (by rw [g2]; exact hu8)
      (by rw [g1, g2]; exact hle)
    rw [g1, g2] at ih1
    have h1 := tick_keeps_bounds t.1 t.2 w ax hu8 hle
    exact ⟨fun h => ih1.1 (h1.1 h), fun h => ih1.2 (h1.2 h)⟩

/-- Accumulator after an unblocked tick. -/
theorem tuneTick_AvgGyro (ax : Axis) (env : Env) (w : World) :
    (tuneTick ax env w).st.AvgGyro ax =
      if toInt8 (w.st.time_skip ax + 1) = 16
      then toInt32 (((accumulate ax env w.st).AvgGyro ax).tdiv 16)
      else (accumulate ax env w.st).AvgGyro ax := by
  by_cases h : toInt8 (w.st.time_skip ax + 1) = 16
  · have h2 : (accumulate ax env w.st).time_skip ax = 16 := by
      rw [accumulate_time_skip]; exact h
    simp only [tuneTick, h2, if_true, h, finalize, average]
    split_ifs <;> simp [adjust]
  · have h2 : ¬ (accumulate ax env w.st).time_skip ax = 16 := by
      rw [accumulate_time_skip]; exact h
    simp only [tuneTick, h2, if_false, h]

theorem accumulate_AvgGyro_settling (ax : Axis) (env : Env) (st : Statics)
    (h : st.time_skip ax < 0) (h2 : -128 ≤ st.time_skip ax) :
    (accumulate ax env st).AvgGyro ax = st.AvgGyro ax := by
  have h3 : st.time_skip ax ≠ 0 := by omega
  have h4 : ¬ toInt8 (st.time_skip ax + 1) > 0 := by
    unfold toInt8; omega
  simp [accumulate, h3, h4]

/-! ### Counting ticks after a reset -/

/-- Counter after `n` consecutive unblocked ticks that follow a reset. -/
theorem cadence_time_skip (ax : Axis) (w : World) (h0 : w.st.time_skip ax = -125)
    (envs : List Env) (hub : ∀ e ∈ envs, blocked e ax = false) :
    (runAxis ax envs w).st.time_skip ax =
      if envs.length < 141 then (envs.length : Int) - 125
      else ((envs.length : Int) - 141) % 16 := by
  induction envs using List.reverseRecOn with
  | nil => simpa [runAxis, runTicks] using h0
  | append_singleton l e ih =>
    have hl : ∀ e' ∈ l, blocked e' ax = false := fun e' he' => hub e' (by simp [he'])
    have he : blocked e ax = false := hub e (by simp)
    rw [runAxis_snoc, tick_unblocked _ he, tuneTick_time_skip, ih hl]
    simp only [List.length_append, List.length_singleton, Nat.cast_add, Nat.cast_one]
    unfold toInt8
    split_ifs <;> omega

/-- During the settle time and the first window nothing but the counter and the
accumulator moves: the profile, `result_P64` and `OldError[ax] = 0` stay. -/
theorem settle_state (ax : Axis) (w : World) (h0 : w.st.time_skip ax = -125)
    (hold : w.st.OldError ax = 0) (envs : List Env)
    (hub : ∀ e ∈ envs, blocked e ax = false) (hn : envs.length ≤ 140) :
    (runAxis ax envs w).pid = w.pid ∧
      (runAxis ax envs w).st.result_P64 = w.st.result_P64 ∧
      (runAxis ax envs w).st.OldError ax = 0 := by
  induction envs using List.reverseRecOn with
  | nil => exact ⟨rfl, rfl, hold⟩
  | append_singleton l e ih =>
    have hl : ∀ e' ∈ l, blocked e' ax = false := fun e' he' => hub e' (by simp [he'])
    have he : blocked e ax = false := hub e (by simp)
    have hlen : l.length ≤ 139 := by
      simp only [List.length_append, List.length_singleton] at hn
      omega
    obtain ⟨i1, i2, i3⟩ := ih hl (by omega)
    have hts := cadence_time_skip ax w h0 l hl
    rw [if_pos (by omega)] at hts
    rw [runAxis_snoc]
    obtain ⟨g1, g2⟩ := tick_gain_unchanged (not_runsAdjuster_of_OldError_zero e i3)
    refine ⟨g1.trans i1, g2.trans i2, ?_⟩
    rw [tick_unblocked _ he, tuneTick_OldError, hts, if_neg, i3]
    unfold toInt8
    omega

/-- The tick that completes the first window after a reset skips the adjuster. -/
theorem first_window_state (ax : Axis) (w : World) (h0 : w.st.time_skip ax = -125)
    (hold : w.st.OldError ax = 0) (envs : List Env)
    (hub : ∀ e ∈ envs, blocked e ax = false) (hn : envs.length ≤ 140) (e : Env) :
    (calculate_Gtune false ax e (runAxis ax envs w)).pid = w.pid ∧
      (calculate_Gtune false ax e (runAxis ax envs w)).st.result_P64 = w.st.result_P64 := by
  obtain ⟨i1, i2, i3⟩ := settle_state ax w h0 hold envs hub hn
  obtain ⟨g1, g2⟩ := tick_gain_unchanged (not_runsAdjuster_of_OldError_zero e i3)
  exact ⟨g1.trans i1, g2.trans i2⟩

theorem blocked_quietEnv (ax : Axis) : blocked quietEnv ax = false := by
  cases ax <;> decide

theorem replicate_quiet_unblocked (ax : Axis) (n : Nat) :
    ∀ e ∈ List.replicate n quietEnv, blocked e ax = false := by
  intro e he
  rw [List.eq_of_mem_replicate he]
  exact blocked_quietEnv ax

theorem runAxis_replicate (ax : Axis) (n : Nat) (e : Env) (w : World) :
    runAxis ax (List.replicate n e) w = runTicks (List.replicate n (ax, e)) w := by
  simp [runAxis]

/-! ### A disabled axis -/

/-- A call of either kind leaves a disabled axis (`hilim = 0`, gain already raised to
`lolim` and mirrored in `result_P64`) exactly as it is. -/
theorem call_disabled (c : Bool × Axis × Env) (v : World) (i : Axis)
    (h0 : v.pid.gtune_hilimP i = 0) (h1 : v.pid.gtune_lolimP i ≤ v.pid.P8 i)
    (h2 : v.st.result_P64 i = toInt16 ((v.pid.P8 i : Int) * 64)) :
    (calculate_Gtune c.1 c.2.1 c.2.2 v).pid.gtune_hilimP i = 0 ∧
      (calculate_Gtune c.1 c.2.1 c.2.2 v).pid.gtune_lolimP i = v.pid.gtune_lolimP i ∧
      (calculate_Gtune c.1 c.2.1 c.2.2 v).pid.P8 i = v.pid.P8 i ∧
      (calculate_Gtune c.1 c.2.1 c.2.2 v).st.result_P64 i = v.st.result_P64 i := by
  obtain ⟨b, a, e⟩ := c
  cases b
  · obtain ⟨g1, g2, -⟩ := tick_limits a e v
    refine ⟨by rw [g2]; exact h0, by rw [g1], ?_⟩
    by_cases ha : i = a
    · subst ha
      obtain ⟨k1, k2⟩ := tick_gain_unchanged (not_runsAdjuster_of_hilim_zero e h0)
      exact ⟨by rw [k1], by rw [k2]⟩
    · obtain ⟨k1, -, -, k2, -⟩ := tick_other_axis a e v ha
      exact ⟨k1, k2⟩
  · have hcall : calculate_Gtune true a e v = initRun e v := rfl
    simp only [hcall]
    have hp : (initRun e v).pid.P8 i = v.pid.P8 i := by
      rw [initRun_P8]; omega
    refine ⟨?_, rfl, hp, ?_⟩
    · rw [initRun_hilim]
      split_ifs
      · rfl
      · exact h0
    · rw [initRun_result_P64, ← initRun_P8 e v i, hp, h2]

theorem runCalls_disabled (calls : List (Bool × Axis × Env)) (v : World) (i : Axis)
    (h0 : v.pid.gtune_hilimP i = 0) (h1 : v.pid.gtune_lolimP i ≤ v.pid.P8 i)
    (h2 : v.st.result_P64 i = toInt16 ((v.pid.P8 i : Int) * 64)) :
    (runCalls calls v).pid.P8 i = v.pid.P8 i ∧
      (runCalls calls v).st.result_P64 i = v.st.result_P64 i := by
  induction calls generalizing v with
  | nil => exact ⟨rfl, rfl⟩
  | cons c calls ih =>
    obtain ⟨k0, k1, k2, k3⟩ := call_disabled c v i h0 h1 h2
    have hstep : runCalls (c :: calls) v = runCalls calls (calculate_Gtune c.1 c.2.1 c.2.2 v) :=
      rfl
    rw [hstep]
    obtain ⟨m1, m2⟩ := ih (calculate_Gtune c.1 c.2.1 c.2.2 v) k0 (by rw [k1, k2]; exact h1)
      (by rw [k3, k2]; exact h2)
    exact ⟨m1.trans k2, m2.trans k3⟩

/-! ### Opposite-sign evaluations and skipped evaluations -/

/-- Step taken on an evaluation whose error changed sign. -/
theorem stepP64_opposite {ax : Axis} {pwr : Nat} {error old p64 : Int}
    (he : -32768 ≤ error ∧ error ≤ 32767) (ho : -32768 ≤ old ∧ old ≤ 32767)
    (hs : (0 < error ∧ old < 0) ∨ (error < 0 ∧ 0 < old)) :
    stepP64 ax pwr error old p64 =
      if |(|error| - |old|)| > (if ax = Axis.yaw then 20 else 10) ∧ ax ≠ Axis.yaw
      then toInt16 (p64 - 32) else p64 := by
  have ho0 : old ≠ 0 := by omega
  have hd := diffG_eq he ho ho0
  simp only [stepP64, hd, threshP_eq, FD_YAW, ABS_eq_abs]
  rw [if_neg (by omega)]

/-- A tick that completes a window stores the window's error in `OldError[ax]`. -/
theorem tick_completes_OldError {ax : Axis} {env : Env} {w : World}
    (h : completesWindow ax env w) :
    (calculate_Gtune false ax env w).st.OldError ax = windowError ax env w := by
  rw [tick_unblocked w h.1, tuneTick_OldError, if_pos]
  rw [← accumulate_time_skip ax env]
  exact h.2

theorem not_runsAdjuster_of_skip {ax : Axis} {env : Env} {w : World}
    (h : w.pid.gtune_hilimP ax = 0 ∨ windowError ax env w = 0 ∨ w.st.OldError ax = 0 ∨
      windowError ax env w = w.st.OldError ax) : ¬ runsAdjuster ax env w := by
  rintro ⟨-, hg⟩
  simp only [gate, Bool.and_eq_true, decide_eq_true_eq] at hg
  obtain ⟨⟨⟨g1, g2⟩, g3⟩, g4⟩ := hg
  rcases h with h | h | h | h
  · exact g1 h
  · exact g2 h
  · exact g3 h
  · exact g4 h

/-! ### Truncating division and the quantised samples -/

theorem tdiv_cases (a b : Int) (hb : 0 < b) :
    a.tdiv b = if 0 ≤ a then a / b else -((-a) / b) := by
  split_ifs with h
  · exact Int.tdiv_eq_ediv h (le_of_lt hb)
  · have h1 : (-(-a)).tdiv b = -((-a).tdiv b) := Int.neg_tdiv (-a) b
    rw [neg_neg] at h1
    rw [h1, Int.tdiv_eq_ediv (by omega) (le_of_lt hb)]

theorem chop_eq (ax : Axis) (env : Env) : chop ax env = grain ax * quant ax env := by
  unfold chop quant grain
  by_cases h : ax = FD_YAW
  · simp only [h, if_true]
  · simp only [h, if_false]

theorem chop_range (ax : Axis) (env : Env) :
    -32768 ≤ chop ax env ∧ chop ax env ≤ 32767 := by
  have h := toInt16_range (env.gyroData ax)
  unfold chop
  split_ifs
  · rw [tdiv_cases _ _ (by norm_num)]
    split_ifs <;> omega
  · rw [tdiv_cases _ _ (by norm_num)]
    split_ifs <;> omega

theorem chop_mod (ax : Axis) (env : Env) : chop ax env % grain ax = 0 := by
  rw [chop_eq]
  exact Int.mul_emod_right _ _

theorem chopSum_nil (ax : Axis) : chopSum ax [] = 0 := rfl

theorem chopSum_snoc (ax : Axis) (envs : List Env) (e : Env) :
    chopSum ax (envs ++ [e]) = chopSum ax envs + chop ax e := by
  simp [chopSum]

theorem chopSum_range (ax : Axis) (envs : List Env) :
    -32768 * (envs.length : Int) ≤ chopSum ax envs ∧
      chopSum ax envs ≤ 32767 * (envs.length : Int) := by
  induction envs using List.reverseRecOn with
  | nil => simp [chopSum]
  | append_singleton l e ih =>
    have h := chop_range ax e
    rw [chopSum_snoc]
    simp only [List.length_append, List.length_singleton, Nat.cast_add, Nat.cast_one]
    omega

theorem chopSum_eq_grain_mul (ax : Axis) (envs : List Env) :
    chopSum ax envs = grain ax * ((envs.map (quant ax)).sum) := by
  induction envs using List.reverseRecOn with
  | nil => simp [chopSum]
  | append_singleton l e ih =>
    rw [chopSum_snoc, ih, chop_eq]
    simp [mul_add]

theorem toInt32_of_range {x : Int} (h1 : -2147483648 ≤ x) (h2 : x ≤ 2147483647) :
    toInt32 x = x := by
  unfold toInt32; omega

theorem toInt8_of_range {x : Int} (h1 : -128 ≤ x) (h2 : x ≤ 127) : toInt8 x = x := by
  unfold toInt8; omega

/-- Accumulator after lines 118-124, from the entries of `ax` before the tick. -/
theorem accumulate_AvgGyro (ax : Axis) (env : Env) (st : Statics) :
    (accumulate ax env st).AvgGyro ax =
      if toInt8 (st.time_skip ax + 1) > 0
      then toInt32 ((if st.time_skip ax = 0 then 0 else st.AvgGyro ax) + chop ax env)
      else (if st.time_skip ax = 0 then 0 else st.AvgGyro ax) := by
  simp [accumulate]

/-! ### One window, tick by tick -/

theorem not_runsAdjuster_of_not_completes {ax : Axis} {env : Env} {w : World}
    (h : ¬ completesWindow ax env w) : ¬ runsAdjuster ax env w :=
  fun hr => h hr.1

/-- From the start of a window (`time_skip[ax] = 0`), after `k <= 15` unblocked ticks the
counter is `k`, the accumulator is the sum of the `k` quantised samples, and nothing
else of the axis, the profile or `result_P64` has moved. -/
theorem window_progress (ax : Axis) (w : World) (h0 : w.st.time_skip ax = 0)
    (envs : List Env) (hub : ∀ e ∈ envs, blocked e ax = false) (hlen : envs.length ≤ 15) :
    (runAxis ax envs w).st.time_skip ax = (envs.length : Int) ∧
      (envs ≠ [] → (runAxis ax envs w).st.AvgGyro ax = chopSum ax envs) ∧
      (runAxis ax envs w).st.OldError ax = w.st.OldError ax ∧
      (runAxis ax envs w).pid = w.pid ∧
      (runAxis ax envs w).st.result_P64 = w.st.result_P64 := by
  induction envs using List.reverseRecOn with
  | nil => exact ⟨by simpa [runAxis, runTicks] using h0, fun h => absurd rfl h, rfl, rfl, rfl⟩
  | append_singleton l e ih =>
    have hl : ∀ e' ∈ l, blocked e' ax = false := fun e' he' => hub e' (by simp [he'])
    have he : blocked e ax = false := hub e (by simp)
    have hlen' : l.length ≤ 14 := by
      simp only [List.length_append, List.length_singleton] at hlen
      omega
    obtain ⟨i1, i2, i3, i4, i5⟩ := ih hl (by omega)
    have hk : toInt8 ((runAxis ax l w).st.time_skip ax + 1) = (l.length : Int) + 1 := by
      rw [i1]; exact toInt8_of_range (by omega) (by omega)
    have hne : ¬ toInt8 ((runAxis ax l w).st.time_skip ax + 1) = 16 := by
      rw [hk]; omega
    have hnc : ¬ completesWindow ax e (runAxis ax l w) := by
      rintro ⟨-, h16⟩
      rw [accumulate_time_skip] at h16
      exact hne h16
    obtain ⟨g1, g2⟩ := tick_gain_unchanged (not_runsAdjuster_of_not_completes hnc)
    rw [runAxis_snoc]
    refine ⟨?_, fun _ => ?_, ?_, g1.trans i4, g2.trans i5⟩
    · rw [tick_unblocked _ he, tuneTick_time_skip, if_neg hne, hk]
      simp
    · rw [tick_unblocked _ he, tuneTick_AvgGyro, if_neg hne, accumulate_AvgGyro, hk,
        if_pos (by omega), chopSum_snoc, i1]
      have hc := chop_range ax e
      have hs := chopSum_range ax l
      by_cases hnil : l = []
      · subst hnil
        simp only [List.length_nil, Nat.cast_zero, if_true, chopSum_nil]
        exact toInt32_of_range (by omega) (by omega)
      · have hpos : 0 < l.length := List.length_pos.2 hnil
        rw [if_neg (by omega), i2 hnil]
        exact toInt32_of_range (by omega) (by omega)
    · rw [tick_unblocked _ he, tuneTick_OldError, if_neg hne, i3]

/-- The 16th unblocked tick of a window completes it; the accumulator then holds the sum
of the 16 quantised samples and the error is taken from that sum divided by 16. -/
theorem window_close (ax : Axis) (w : World) (h0 : w.st.time_skip ax = 0)
    (envs : List Env) (hub : ∀ e ∈ envs, blocked e ax = false) (hlen : envs.length = 15)
    (e : Env) (he : blocked e ax = false) :
    completesWindow ax e (runAxis ax envs w) ∧
      (accumulate ax e (runAxis ax envs w).st).AvgGyro ax = chopSum ax (envs ++ [e]) ∧
      windowError ax e (runAxis ax envs w) =
        errorOf ax ((chopSum ax (envs ++ [e])).tdiv 16) := by
  obtain ⟨i1, i2, -, -, -⟩ := window_progress ax w h0 envs hub (by omega)
  have hnil : envs ≠ [] := by
    intro h
    rw [h] at hlen
    simp at hlen
  have hk : toInt8 ((runAxis ax envs w).st.time_skip ax + 1) = 16 := by
    rw [i1, hlen]; decide
  have hts : (accumulate ax e (runAxis ax envs w).st).time_skip ax = 16 := by
    rw [accumulate_time_skip]; exact hk
  have hc := chop_range ax e
  have hs := chopSum_range ax envs
  have hsum : (accumulate ax e (runAxis ax envs w).st).AvgGyro ax = chopSum ax (envs ++ [e]) := by
    rw [accumulate_AvgGyro, hk, if_pos (by decide), i1, hlen, if_neg (by decide), i2 hnil,
      chopSum_snoc]
    rw [hlen] at hs
    exact toInt32_of_range (by omega) (by omega)
  refine ⟨⟨he, hts⟩, hsum, ?_⟩
  unfold windowError average
  rw [hts, hsum]
  congr 1
  have hs16 := chopSum_range ax (envs ++ [e])
  simp only [List.length_append, List.length_singleton, hlen] at hs16
  rw [tdiv_cases _ _ (by norm_num)]
  apply toInt32_of_range <;> split_ifs <;> omega

/-! ### The accumulator invariant -/

theorem grain_cases (ax : Axis) : (ax = Axis.yaw ∧ grain ax = 32) ∨ (ax ≠ Axis.yaw ∧ grain ax = 128) := by
  cases ax <;> simp [grain, FD_YAW]

theorem errorOf_cases (ax : Axis) (avg : Int) :
    (ax = Axis.yaw ∧ errorOf ax avg = toInt16 (toInt32 (-avg))) ∨
      (ax ≠ Axis.yaw ∧ errorOf ax avg = toInt16 avg) := by
  cases ax <;> simp [errorOf, FD_YAW]

/-- Entries of `ax` after an unblocked tick on `ax`, from the entries before it. -/
theorem tuneTick_entries (ax : Axis) (env : Env) (w : World) :
    (tuneTick ax env w).st.time_skip ax =
        (if toInt8 (w.st.time_skip ax + 1) = 16 then 0 else toInt8 (w.st.time_skip ax + 1)) ∧
      (tuneTick ax env w).st.AvgGyro ax =
        (if toInt8 (w.st.time_skip ax + 1) = 16
          then toInt32 (((accumulate ax env w.st).AvgGyro ax).tdiv 16)
          else (accumulate ax env w.st).AvgGyro ax) ∧
      (tuneTick ax env w).st.OldError ax =
        (if toInt8 (w.st.time_skip ax + 1) = 16
          then errorOf ax (toInt32 (((accumulate ax env w.st).AvgGyro ax).tdiv 16))
          else w.st.OldError ax) := by
  refine ⟨tuneTick_time_skip ax env w, tuneTick_AvgGyro ax env w, ?_⟩
  rw [tuneTick_OldError]
  by_cases h : toInt8 (w.st.time_skip ax + 1) = 16
  · rw [if_pos h, if_pos h]
    unfold windowError average
    rw [accumulate_time_skip, h]
  · rw [if_neg h, if_neg h]

theorem tuneTick_keeps_AccInv (ax : Axis) (env : Env) (w : World) (h : AccInv w.st ax) :
    AccInv (tuneTick ax env w).st ax := by
  obtain ⟨h1, h2, h3, h4, h5, h6, h7, h8⟩ := h
  obtain ⟨e1, e2, e3⟩ := tuneTick_entries ax env w
  have hc := chop_range ax env
  have hm := chop_mod ax env
  have hk : toInt8 (w.st.time_skip ax + 1) = w.st.time_skip ax + 1 :=
    toInt8_of_range (by omega) (by omega)
  rw [accumulate_AvgGyro, hk] at e2 e3
  rw [hk] at e1
  unfold AccInv
  by_cases c15 : w.st.time_skip ax = 15
  · have h5' := h5 (by omega)
    have hA : w.st.time_skip ax + 1 = 16 := by omega
    have hB : w.st.time_skip ax + 1 > 0 := by omega
    have hC : ¬ w.st.time_skip ax = 0 := by omega
    have hsum : toInt32 (w.st.AvgGyro ax + chop ax env) = w.st.AvgGyro ax + chop ax env :=
      toInt32_of_range (by omega) (by omega)
    simp only [if_pos hA, if_pos hB, if_neg hC, hsum] at e1 e2 e3
    rw [tdiv_cases _ _ (by norm_num)] at e2 e3
    rw [e1, e2, e3]
    rcases grain_cases ax with ⟨hax, hg⟩ | ⟨hax, hg⟩
    · rw [hg] at hm h5'
      rw [((errorOf_cases ax _).resolve_right (fun h => h.1 hax)).2, if_pos hax]
      unfold toInt16 toInt32
      refine ⟨by omega, by omega, ?_, ?_, fun h => absurd h (by omega), ?_, ?_, ?_⟩ <;>
        split_ifs <;> omega
    · rw [hg] at hm h5'
      rw [((errorOf_cases ax _).resolve_left (fun h => hax h.1)).2, if_neg hax]
      unfold toInt16 toInt32
      refine ⟨by omega, by omega, ?_, ?_, fun h => absurd h (by omega), ?_, ?_, ?_⟩ <;>
        split_ifs <;> omega
  · have hA : ¬ w.st.time_skip ax + 1 = 16 := by omega
    simp only [if_neg hA] at e1 e2 e3
    by_cases c0 : w.st.time_skip ax = 0
    · have hB : w.st.time_skip ax + 1 > 0 := by omega
      simp only [if_pos hB, if_pos c0, zero_add] at e2
      rw [toInt32_of_range (by omega) (by omega)] at e2
      rw [e1, e2, e3, c0]
      exact ⟨by omega, by omega, by omega, by omega, fun _ => ⟨by omega, by omega, hm⟩,
        h6, h7, h8⟩
    · by_cases cpos : 0 < w.st.time_skip ax
      · have h5' := h5 cpos
        have hB : w.st.time_skip ax + 1 > 0 := by omega
        have hmod : (w.st.AvgGyro ax + chop ax env) % grain ax = 0 := by
          rcases grain_cases ax with ⟨-, hg⟩ | ⟨-, hg⟩ <;> rw [hg] at hm h5' ⊢ <;> omega
        simp only [if_pos hB, if_neg c0] at e2
        rw [toInt32_of_range (by omega) (by omega)] at e2
        rw [e1, e2, e3]
        exact ⟨by omega, by omega, by omega, by omega, fun _ => ⟨by omega, by omega, hmod⟩,
          h6, h7, h8⟩
      · have hB : ¬ w.st.time_skip ax + 1 > 0 := by omega
        simp only [if_neg hB, if_neg c0] at e2
        rw [e1, e2, e3]
        exact ⟨by omega, by omega, h3, h4, fun h => absurd h (by omega), h6, h7, h8⟩

theorem runCalls_cons (c : Bool × Axis × Env) (calls : List (Bool × Axis × Env)) (w : World) :
    runCalls (c :: calls) w = runCalls calls (calculate_Gtune c.1 c.2.1 c.2.2 w) := rfl

theorem AccInv_zeroStatics (ax : Axis) : AccInv zeroStatics ax := by
  unfold AccInv zeroStatics
  simp

/-- Every call, of either kind and on any axis, keeps the accumulator invariant. -/
theorem call_keeps_AccInv (c : Bool × Axis × Env) (w : World) (ax : Axis)
    (h : AccInv w.st ax) : AccInv (calculate_Gtune c.1 c.2.1 c.2.2 w).st ax := by
  obtain ⟨b, a, e⟩ := c
  cases b
  · by_cases ha : ax = a
    · subst ha
      cases hb : blocked e ax
      · simp only [tick_unblocked w hb]
        exact tuneTick_keeps_AccInv ax e w h
      · simp only [tick_blocked w hb]
        obtain ⟨h1, h2, h3, h4, h5, h6, h7, h8⟩ := h
        unfold AccInv
        simp only [blockReset, setAt_same]
        refine ⟨by omega, by omega, h3, h4, fun hp => absurd hp (by omega), by omega, by omega, ?_⟩
        split_ifs <;> rfl
    · obtain ⟨-, k2, k3, -, k5⟩ := tick_other_axis a e w ha
      unfold AccInv at h ⊢
      simp only [k2, k3, k5]
      exact h
  · have hcall : calculate_Gtune true a e w = initRun e w := rfl
    simp only [hcall]
    obtain ⟨h1, h2, h3, h4, h5, h6, h7, h8⟩ := h
    unfold AccInv
    rw [initRun_time_skip, initRun_OldError, initRun_AvgGyro]
    refine ⟨by omega, by omega, h3, h4, fun hp => absurd hp (by omega), by omega, by omega, ?_⟩
    split_ifs <;> rfl

theorem runCalls_keeps_AccInv (calls : List (Bool × Axis × Env)) (w : World) (ax : Axis)
    (h : AccInv w.st ax) : AccInv (runCalls calls w).st ax := by
  induction calls generalizing w with
  | nil => exact h
  | cons c calls ih =>
    rw [runCalls_cons]
    exact ih _ (call_keeps_AccInv c w ax h)

/-! ### The gain invariant -/

theorem initRun_GainInv (env : Env) (w : World) (hr : w.pid.inRange) :
    GainInv (initRun env w) := by
  obtain ⟨h1, h2, h3, h4⟩ := hr
  refine ⟨⟨fun i => ?_, fun i => h2 i, fun i => ?_, h4⟩, fun i => ?_⟩
  · rw [initRun_P8]
    have := h1 i
    have := h2 i
    omega
  · rw [initRun_hilim]
    have := h3 i
    split_ifs <;> omega
  · have := h1 i
    have := h2 i
    rw [initRun_result_P64, initRun_P8, toInt16_of_range (by omega) (by omega), shr6_eq]
    omega

theorem tick_keeps_GainInv (a : Axis) (e : Env) (w : World) (h : GainInv w) :
    GainInv (calculate_Gtune false a e w) := by
  obtain ⟨hr, hg⟩ := h
  by_cases hrun : runsAdjuster a e w
  · obtain ⟨x1, x2⟩ := tick_runsAdjuster_exact hr hrun
    obtain ⟨l1, l2, l3⟩ := tick_limits a e w
    obtain ⟨r1, r2, r3, r4⟩ := hr
    have hlo := r2 a
    have hhi := r3 a
    have hl0 : (0 : Int) ≤ (w.pid.gtune_lolimP a : Int) * 64 := by omega
    have hh0 : (0 : Int) ≤ (w.pid.gtune_hilimP a : Int) * 64 := by omega
    have hl1 : (w.pid.gtune_lolimP a : Int) * 64 ≤ 16320 := by omega
    have hh1 : (w.pid.gtune_hilimP a : Int) * 64 ≤ 16320 := by omega
    have hc := constrain_between
      (stepP64 a w.pid.gtune_pwr (windowError a e w) (w.st.OldError a) (w.st.result_P64 a))
      hl0 hh0 hl1 hh1
    rw [← x1] at hc
    have key : ∀ i, 0 ≤ (calculate_Gtune false a e w).st.result_P64 i ∧
        (calculate_Gtune false a e w).st.result_P64 i ≤ 255 * 64 ∧
        ((calculate_Gtune false a e w).pid.P8 i : Int) =
          (calculate_Gtune false a e w).st.result_P64 i >>> (6 : Nat) := by
      intro i
      by_cases hi : i = a
      · subst hi
        exact ⟨hc.1, by omega, x2⟩
      · obtain ⟨k1, -, -, k4, -⟩ := tick_other_axis a e w hi
        rw [k1, k4]
        exact hg i
    refine ⟨⟨fun i => ?_, fun i => by rw [l1]; exact r2 i, fun i => by rw [l2]; exact r3 i,
      by rw [l3]; exact r4⟩, key⟩
    obtain ⟨k1, k2, k3⟩ := key i
    rw [shr6_eq] at k3
    omega
  · obtain ⟨g1, g2⟩ := tick_gain_unchanged hrun
    unfold GainInv
    rw [g1, g2]
    exact ⟨hr, hg⟩

theorem call_keeps_GainInv (c : Bool × Axis × Env) (w : World) (h : GainInv w) :
    GainInv (calculate_Gtune c.1 c.2.1 c.2.2 w) := by
  obtain ⟨b, a, e⟩ := c
  cases b
  · exact tick_keeps_GainInv a e w h
  · exact initRun_GainInv e w h.1

theorem runCalls_keeps_GainInv (calls : List (Bool × Axis × Env)) (w : World)
    (h : GainInv w) : GainInv (runCalls calls w) := by
  induction calls generalizing w with
  | nil => exact h
  | cons c calls ih =>
    rw [runCalls_cons]
    exact ih _ (call_keeps_GainInv c w h)

/-! ### Runs with a constant gyro reading -/

theorem blocked_gyroEnv (g : Int) (ax : Axis) : blocked (gyroEnv g) ax = false := by
  cases ax <;> simp [blocked, gyroEnv, quietEnv, FD_YAW]

theorem replicate_unblocked {e : Env} {ax : Axis} (h : blocked e ax = false) (n : Nat) :
    ∀ e' ∈ List.replicate n e, blocked e' ax = false := by
  intro e' he'
  rw [List.eq_of_mem_replicate he']
  exact h

theorem runAxis_append (ax : Axis) (a b : List Env) (w : World) :
    runAxis ax (a ++ b) w = runAxis ax b (runAxis ax a w) := by
  simp [runAxis, runTicks, List.foldl_append]

/-- State of the accumulator entries left by a tick that completes a window. -/
theorem tick_completes_entries {ax : Axis} {env : Env} {w : World}
    (h : completesWindow ax env w) :
    (calculate_Gtune false ax env w).st.time_skip ax = 0 ∧
      (calculate_Gtune false ax env w).st.AvgGyro ax =
        toInt32 (((accumulate ax env w.st).AvgGyro ax).tdiv 16) := by
  have h16 : toInt8 (w.st.time_skip ax + 1) = 16 := by
    rw [← accumulate_time_skip ax env]; exact h.2
  rw [tick_unblocked w h.1, tuneTick_time_skip, tuneTick_AvgGyro, if_pos h16, if_pos h16]
  exact ⟨rfl, rfl⟩

/-- The first unblocked tick of a window clears the accumulator before folding its
sample in. -/
theorem tick_starts_window {ax : Axis} {env : Env} {w : World}
    (h0 : w.st.time_skip ax = 0) (hb : blocked env ax = false) :
    (calculate_Gtune false ax env w).st.time_skip ax = 1 ∧
      (calculate_Gtune false ax env w).st.AvgGyro ax = chop ax env := by
  have hk : toInt8 (w.st.time_skip ax + 1) = 1 := by rw [h0]; decide
  have hc := chop_range ax env
  rw [tick_unblocked w hb, tuneTick_time_skip, tuneTick_AvgGyro, accumulate_AvgGyro, hk,
    if_neg (by decide), if_neg (by decide), if_pos (by decide), if_pos h0, zero_add]
  exact ⟨rfl, toInt32_of_range (by omega) (by omega)⟩

/-! ### Exactness of the adjuster's 16-bit arithmetic -/

/-- On `int16_t` errors and a gain in `[0, 255*64]` the step of lines 145-160 equals the
same step computed without any 16-bit reduction. -/
theorem stepP64_exact (ax : Axis) (pwr : Nat) (error old p64 : Int)
    (he : -32768 ≤ error ∧ error ≤ 32767) (ho : -32768 ≤ old ∧ old ≤ 32767)
    (ho0 : old ≠ 0) (hp : 0 ≤ p64 ∧ p64 ≤ 255 * 64) (hpwr : pwr < 256) :
    stepP64 ax pwr error old p64 =
      if (error > 0 ∧ old > 0) ∨ (error < 0 ∧ old < 0) then
        if |error| - |old| > (if ax = Axis.yaw then 20 else 10) then p64 + (64 + (pwr : Int))
        else if |error| - |old| < -(if ax = Axis.yaw then 20 else 10) then
          if ax = Axis.yaw then p64 - (64 + (pwr : Int)) else p64 - 32
        else p64
      else
        if |(|error| - |old|)| > (if ax = Axis.yaw then 20 else 10) ∧ ax ≠ Axis.yaw
        then p64 - 32 else p64 := by
  have hd := diffG_eq he ho ho0
  have t1 : toInt16 (p64 + (64 + (pwr : Int))) = p64 + (64 + (pwr : Int)) :=
    toInt16_of_range (by omega) (by omega)
  have t2 : toInt16 (p64 - (64 + (pwr : Int))) = p64 - (64 + (pwr : Int)) :=
    toInt16_of_range (by omega) (by omega)
  have t3 : toInt16 (p64 - 32) = p64 - 32 := toInt16_of_range (by omega) (by omega)
  simp only [stepP64, hd, threshP_eq, FD_YAW, ABS_eq_abs, t1, t2, t3]

theorem abs_diff_range {error old : Int} (he : -32768 ≤ error ∧ error ≤ 32767)
    (ho : -32768 ≤ old ∧ old ≤ 32767) (he0 : error ≠ 0) (ho0 : old ≠ 0) :
    -32767 ≤ |error| - |old| ∧ |error| - |old| ≤ 32767 := by
  rcases abs_cases error with ⟨h1, _⟩ | ⟨h1, _⟩ <;>
    rcases abs_cases old with ⟨h2, _⟩ | ⟨h2, _⟩ <;> omega

/-! ### Settle time after a blocked tick -/

theorem runAxis_cons (ax : Axis) (e : Env) (envs : List Env) (w : World) :
    runAxis ax (e :: envs) w = runAxis ax envs (calculate_Gtune false ax e w) := rfl

theorem blockReset_SettleInv (ax : Axis) (w : World) : SettleInv 0 (blockReset ax w).st ax :=
  ⟨0, le_refl 0, Or.inl ⟨by decide, by simp [blockReset], by simp [blockReset]⟩⟩

/-- Within 156 ticks of a blocked tick no tick runs the adjuster, blocked or not. -/
theorem settle_step (ax : Axis) (e : Env) (w : World) (n : Nat) (h : SettleInv n w.st ax)
    (hn : n ≤ 155) :
    ¬ runsAdjuster ax e w ∧ SettleInv (n + 1) (calculate_Gtune false ax e w).st ax := by
  obtain ⟨j, hj, hcase⟩ := h
  constructor
  · rcases hcase with ⟨-, -, hold⟩ | ⟨hj2, hts⟩
    · exact not_runsAdjuster_of_OldError_zero e hold
    · apply not_runsAdjuster_of_not_completes
      rintro ⟨-, h16⟩
      rw [accumulate_time_skip, hts] at h16
      unfold toInt8 at h16
      omega
  · cases hb : blocked e ax
    · rw [tick_unblocked w hb]
      have e1 := tuneTick_time_skip ax e w
      have e2 := tuneTick_OldError ax e w
      rcases hcase with ⟨hj1, hts, hold⟩ | ⟨hj2, hts⟩
      · have hk : toInt8 (w.st.time_skip ax + 1) = (j : Int) - 124 := by
          rw [hts]; unfold toInt8; omega
        rw [hk] at e1 e2
        by_cases h140 : j = 140
        · refine ⟨141, by omega, Or.inr ⟨le_refl _, ?_⟩⟩
          rw [e1, if_pos (by omega)]
          norm_num
        · refine ⟨j + 1, by omega, Or.inl ⟨by omega, ?_, ?_⟩⟩
          · rw [e1, if_neg (by omega)]
            push_cast
            omega
          · rw [e2, if_neg (by omega), hold]
      · have hk : toInt8 (w.st.time_skip ax + 1) = (j : Int) - 140 := by
          rw [hts]; unfold toInt8; omega
        rw [hk] at e1
        refine ⟨j + 1, by omega, Or.inr ⟨by omega, ?_⟩⟩
        rw [e1, if_neg (by omega)]
        push_cast
        omega
    · rw [tick_blocked w hb]
      obtain ⟨j', hj', hc'⟩ := blockReset_SettleInv ax w
      exact ⟨j', by omega, hc'⟩

theorem settle_run (ax : Axis) (envs : List Env) (w : World) (n : Nat)
    (h : SettleInv n w.st ax) (hn : n + envs.length ≤ 156) :
    (runAxis ax envs w).pid = w.pid ∧ (runAxis ax envs w).st.result_P64 = w.st.result_P64 := by
  induction envs generalizing w n with
  | nil => exact ⟨rfl, rfl⟩
  | cons e envs ih =>
    simp only [List.length_cons] at hn
    obtain ⟨h1, h2⟩ := settle_step ax e w n h (by omega)
    obtain ⟨g1, g2⟩ := tick_gain_unchanged h1
    obtain ⟨i1, i2⟩ := ih (calculate_Gtune false ax e w) (n + 1) h2 (by omega)
    rw [runAxis_cons]
    exact ⟨i1.trans g1, i2.trans g2⟩

theorem blocked_stickEnv (ax : Axis) : blocked stickEnv ax = true := by
  cases ax <;> simp [blocked, stickEnv, quietEnv]

/-- The 157th unblocked tick after a blocked one can change the gain: on roll with the
default limits and gain 20, a first window of error 128 followed by a second window of
error 1280 raises `result_P64` from 1280 to 1344 and `P8` to 21. -/
theorem settleRun_changes_gain :
    (runAxis Axis.roll settleRun (calculate_Gtune false Axis.roll stickEnv
        ⟨defaultProfile 20, lateWindow 0 0 1280⟩)).st.result_P64 Axis.roll = 1344 ∧
      (runAxis Axis.roll settleRun (calculate_Gtune false Axis.roll stickEnv
        ⟨defaultProfile 20, lateWindow 0 0 1280⟩)).pid.P8 Axis.roll = 21 := by
  have hb1 := blocked_gyroEnv 128 Axis.roll
  have hb2 := blocked_gyroEnv 1280 Axis.roll
  have hv0 : calculate_Gtune false Axis.roll stickEnv ⟨defaultProfile 20, lateWindow 0 0 1280⟩ =
      blockReset Axis.roll ⟨defaultProfile 20, lateWindow 0 0 1280⟩ :=
    tick_blocked _ (blocked_stickEnv Axis.roll)
  rw [hv0]
  generalize hV0 : blockReset Axis.roll ⟨defaultProfile 20, lateWindow 0 0 1280⟩ = v0
  have hts0 : v0.st.time_skip Axis.roll = -125 := by rw [← hV0]; simp [blockReset]
  have hinv0 : SettleInv 0 v0.st Axis.roll := by
    rw [← hV0]; exact blockReset_SettleInv Axis.roll _
  have hpid0 : v0.pid = defaultProfile 20 := by rw [← hV0]; rfl
  have hp0 : v0.st.result_P64 Axis.roll = 1280 := by rw [← hV0]; rfl
  -- settle time: 125 ticks bring the counter to 0
  have h125 := cadence_time_skip Axis.roll v0 hts0 (List.replicate 125 (gyroEnv 128))
    (replicate_unblocked hb1 125)
  rw [List.length_replicate, if_pos (by decide)] at h125
  generalize hV125 : runAxis Axis.roll (List.replicate 125 (gyroEnv 128)) v0 = v125 at h125
  have h0 : v125.st.time_skip Axis.roll = 0 := by rw [h125]; decide
  -- first window
  obtain ⟨k1, -, k3⟩ := window_close Axis.roll v125 h0 (List.replicate 15 (gyroEnv 128))
    (replicate_unblocked hb1 15) (by simp) (gyroEnv 128) hb1
  have hs1 : chopSum Axis.roll (List.replicate 15 (gyroEnv 128) ++ [gyroEnv 128]) = 2048 := by
    decide
  rw [hs1] at k3
  have hold141 := tick_completes_OldError k1
  rw [k3] at hold141
  have hts141 := (tick_completes_entries k1).1
  generalize hV141 : calculate_Gtune false Axis.roll (gyroEnv 128)
    (runAxis Axis.roll (List.replicate 15 (gyroEnv 128)) v125) = v141 at hold141 hts141
  -- second window
  obtain ⟨-, -, p3, -, -⟩ := window_progress Axis.roll v141 hts141
    (List.replicate 15 (gyroEnv 1280)) (replicate_unblocked hb2 15) (by simp)
  obtain ⟨q1, -, q3⟩ := window_close Axis.roll v141 hts141 (List.replicate 15 (gyroEnv 1280))
    (replicate_unblocked hb2 15) (by simp) (gyroEnv 1280) hb2
  have hs2 : chopSum Axis.roll (List.replicate 15 (gyroEnv 1280) ++ [gyroEnv 1280]) = 20480 := by
    decide
  rw [hs2] at q3
  rw [hold141] at p3
  -- the gain has not moved during the first 156 ticks
  obtain ⟨s1, s2⟩ := settle_run Axis.roll
    (List.replicate 125 (gyroEnv 128) ++ (List.replicate 15 (gyroEnv 128) ++ [gyroEnv 128]) ++
      List.replicate 15 (gyroEnv 1280)) v0 0 hinv0 (by simp)
  rw [runAxis_append, runAxis_append, runAxis_snoc, hV125, hV141] at s1 s2
  unfold settleRun
  rw [runAxis_append Axis.roll
      (List.replicate 125 (gyroEnv 128) ++ (List.replicate 15 (gyroEnv 128) ++ [gyroEnv 128]))
      (List.replicate 15 (gyroEnv 1280) ++ [gyroEnv 1280]) v0,
    runAxis_snoc, runAxis_append Axis.roll (List.replicate 125 (gyroEnv 128))
      (List.replicate 15 (gyroEnv 128) ++ [gyroEnv 128]) v0,
    runAxis_snoc, hV125, hV141]
  generalize hV156 : runAxis Axis.roll (List.replicate 15 (gyroEnv 1280)) v141 = v156
    at p3 q1 q3 s1 s2
  rw [hpid0] at s1
  have hp156 : v156.st.result_P64 Axis.roll = 1280 := by rw [s2, hp0]
  have hrun : runsAdjuster Axis.roll (gyroEnv 1280) v156 := by
    refine ⟨q1, ?_⟩
    rw [q3, p3, s1]
    decide
  obtain ⟨x1, x2⟩ := tick_runsAdjuster_exact
    (by rw [s1]; exact defaultProfile_inRange (by decide)) hrun
  rw [q3, p3, s1, hp156] at x1
  have hval : constrain (stepP64 Axis.roll (defaultProfile 20).gtune_pwr
      (errorOf Axis.roll ((20480 : Int).tdiv 16)) (errorOf Axis.roll ((2048 : Int).tdiv 16)) 1280)
      (((defaultProfile 20).gtune_lolimP Axis.roll : Int) * 64)
      (((defaultProfile 20).gtune_hilimP Axis.roll : Int) * 64) = 1344 := by decide
  rw [hval] at x1
  rw [x1] at x2
  have h3 : (1344 : Int) >>> (6 : Nat) = 21 := by decide
  rw [h3] at x2
  exact ⟨x1, by exact_mod_cast x2⟩

theorem settleRun_length : settleRun.length = 157 := by
  simp [settleRun]

theorem settleRun_unblocked : ∀ e ∈ settleRun, blocked e Axis.roll = false := by
  intro e he
  have hcases : e = gyroEnv 128 ∨ e = gyroEnv 1280 := by
    simp only [settleRun, List.mem_append, List.mem_replicate, List.mem_singleton] at he
    tauto
  rcases hcases with rfl | rfl
  · exact blocked_gyroEnv 128 Axis.roll
  · exact blocked_gyroEnv 1280 Axis.roll

/-- Error of a full window in terms of its 16 samples: the quantised sum divided by 16 on
roll and pitch, and its negation on yaw unless every quantised sample is -32768. -/
theorem window_error_value (ax : Axis) (w : World) (h0 : w.st.time_skip ax = 0)
    (envs : List Env) (hub : ∀ e ∈ envs, blocked e ax = false) (hlen : envs.length = 15)
    (e : Env) (he : blocked e ax = false) :
    (ax ≠ Axis.yaw →
        windowError ax e (runAxis ax envs w) = (chopSum ax (envs ++ [e])).tdiv 16) ∧
      (ax = Axis.yaw → -524288 < chopSum ax (envs ++ [e]) →
        windowError ax e (runAxis ax envs w) = -((chopSum ax (envs ++ [e])).tdiv 16)) := by
  obtain ⟨-, -, k3⟩ := window_close ax w h0 envs hub hlen e he
  have hr := chopSum_range ax (envs ++ [e])
  simp only [List.length_append, List.length_singleton, hlen] at hr
  rw [k3, tdiv_cases _ _ (by norm_num)]
  constructor
  · intro hax
    rw [((errorOf_cases ax _).resolve_left (fun h => hax h.1)).2]
    apply toInt16_of_range <;> split_ifs <;> omega
  · intro hax hbig
    rw [((errorOf_cases ax _).resolve_right (fun h => h.1 hax)).2]
    unfold toInt16 toInt32
    split_ifs <;> omega

/-! ### What the accumulator holds after a reset -/

/-- From tick 126 after a reset on, the sample of the tick is added to the accumulator
(cleared first if the tick opens a window), without any 32-bit reduction, and the
accumulator then holds the sum of the quantised samples of the current window. -/
theorem cadence_accumulator (ax : Axis) (w : World) (h0 : w.st.time_skip ax = -125)
    (envs : List Env) (e : Env) (hub : ∀ e' ∈ envs, blocked e' ax = false)
    (hn : 126 ≤ envs.length + 1) :
    (accumulate ax e (runAxis ax envs w).st).AvgGyro ax =
        (if (runAxis ax envs w).st.time_skip ax = 0 then 0
          else (runAxis ax envs w).st.AvgGyro ax) + chop ax e ∧
      (accumulate ax e (runAxis ax envs w).st).AvgGyro ax =
        chopSum ax ((envs ++ [e]).drop (125 + 16 * ((envs.length + 1 - 126) / 16))) := by
  obtain ⟨m, hm⟩ : ∃ m : Nat, m = 125 + 16 * ((envs.length + 1 - 126) / 16) := ⟨_, rfl⟩
  rw [← hm]
  have hmle : m ≤ envs.length := by omega
  have hubT : ∀ e' ∈ envs.take m, blocked e' ax = false :=
    fun e' h => hub e' (List.mem_of_mem_take h)
  have hubD : ∀ e' ∈ envs.drop m, blocked e' ax = false :=
    fun e' h => hub e' (List.mem_of_mem_drop h)
  have hlenT : (envs.take m).length = m := by
    rw [List.length_take]; omega
  have hts := cadence_time_skip ax w h0 (envs.take m) hubT
  rw [hlenT] at hts
  have h0' : (runAxis ax (envs.take m) w).st.time_skip ax = 0 := by
    rw [hts]
    split_ifs <;> omega
  obtain ⟨p1, p2, -⟩ := window_progress ax (runAxis ax (envs.take m) w) h0' (envs.drop m) hubD
    (by rw [List.length_drop]; omega)
  have hpre : runAxis ax (envs.drop m) (runAxis ax (envs.take m) w) = runAxis ax envs w := by
    rw [← runAxis_append, List.take_append_drop]
  rw [hpre] at p1 p2
  rw [List.length_drop] at p1
  have hk : toInt8 ((runAxis ax envs w).st.time_skip ax + 1) =
      (runAxis ax envs w).st.time_skip ax + 1 := by
    rw [p1]
    apply toInt8_of_range <;> omega
  have hpos : (runAxis ax envs w).st.time_skip ax + 1 > 0 := by
    rw [p1]; omega
  have hdrop : (envs ++ [e]).drop m = envs.drop m ++ [e] :=
    List.drop_append_of_le_length hmle
  have hc := chop_range ax e
  have hs := chopSum_range ax (envs.drop m)
  rw [List.length_drop] at hs
  rw [hdrop, chopSum_snoc, accumulate_AvgGyro, hk, if_pos hpos]
  by_cases hnil : envs.drop m = []
  · have hlen0 : envs.length - m = 0 := by
      have := congrArg List.length hnil
      rw [List.length_drop] at this
      simpa using this
    have hz : (runAxis ax envs w).st.time_skip ax = 0 := by
      rw [p1, hlen0]; rfl
    rw [if_pos hz, hnil, chopSum_nil]
    have hx : toInt32 (0 + chop ax e) = 0 + chop ax e :=
      toInt32_of_range (by omega) (by omega)
    exact ⟨hx, hx⟩
  · have hposlen : 0 < envs.length - m := by
      have := List.length_pos.2 hnil
      rw [List.length_drop] at this
      exact this
    have hz : ¬ (runAxis ax envs w).st.time_skip ax = 0 := by
      rw [p1]; omega
    rw [if_neg hz, p2 hnil]
    have hx : toInt32 (chopSum ax (envs.drop m) + chop ax e) =
        chopSum ax (envs.drop m) + chop ax e :=
      toInt32_of_range (by omega) (by omega)
    exact ⟨hx, hx⟩

/-- Counter, previous error and evaluation ticks after a reset, tick by tick. -/
theorem cadence_counter (ax : Axis) (w : World) (h0 : w.st.time_skip ax = -125)
    (envs : List Env) (e : Env) (hub : ∀ e' ∈ envs, blocked e' ax = false)
    (he : blocked e ax = false) :
    (foldsSample ax e (runAxis ax envs w) ↔ 126 ≤ envs.length + 1) ∧
      (completesWindow ax e (runAxis ax envs w) ↔
        141 ≤ envs.length + 1 ∧ (envs.length + 1 - 141) % 16 = 0) ∧
      (calculate_Gtune false ax e (runAxis ax envs w)).st.time_skip ax =
        (if 141 ≤ envs.length + 1 ∧ (envs.length + 1 - 141) % 16 = 0 then 0
          else (runAxis ax envs w).st.time_skip ax + 1) ∧
      (calculate_Gtune false ax e (runAxis ax envs w)).st.OldError ax =
        (if 141 ≤ envs.length + 1 ∧ (envs.length + 1 - 141) % 16 = 0
          then windowError ax e (runAxis ax envs w)
          else (runAxis ax envs w).st.OldError ax) ∧
      (envs.length + 1 < 126 →
        (calculate_Gtune false ax e (runAxis ax envs w)).st.AvgGyro ax =
          (runAxis ax envs w).st.AvgGyro ax) ∧
      (141 ≤ envs.length + 1 ∧ (envs.length + 1 - 141) % 16 = 0 →
        (calculate_Gtune false ax e (runAxis ax envs w)).st.AvgGyro ax =
          toInt32 (((accumulate ax e (runAxis ax envs w).st).AvgGyro ax).tdiv 16)) := by
  have hts := cadence_time_skip ax w h0 envs hub
  have hkey : toInt8 ((runAxis ax envs w).st.time_skip ax + 1) =
      (runAxis ax envs w).st.time_skip ax + 1 := by
    rw [hts]
    unfold toInt8
    split_ifs <;> omega
  have h16 : (runAxis ax envs w).st.time_skip ax + 1 = 16 ↔
      141 ≤ envs.length + 1 ∧ (envs.length + 1 - 141) % 16 = 0 := by
    rw [hts]
    split_ifs <;> omega
  have hpos : (runAxis ax envs w).st.time_skip ax + 1 > 0 ↔ 126 ≤ envs.length + 1 := by
    rw [hts]
    split_ifs <;> omega
  rw [tick_unblocked _ he, tuneTick_time_skip, tuneTick_OldError, tuneTick_AvgGyro]
  simp only [foldsSample, completesWindow, accumulate_time_skip, he, true_and]
  rw [hkey]
  refine ⟨hpos, h16, ?_, ?_, ?_, ?_⟩
  · by_cases hc : 141 ≤ envs.length + 1 ∧ (envs.length + 1 - 141) % 16 = 0
    · rw [if_pos (h16.2 hc), if_pos hc]
    · rw [if_neg (fun h => hc (h16.1 h)), if_neg hc]
  · by_cases hc : 141 ≤ envs.length + 1 ∧ (envs.length + 1 - 141) % 16 = 0
    · rw [if_pos (h16.2 hc), if_pos hc]
    · rw [if_neg (fun h => hc (h16.1 h)), if_neg hc]
  · intro hn
    have hne : ¬ (runAxis ax envs w).st.time_skip ax + 1 = 16 := by
      intro h
      have := h16.1 h
      omega
    rw [if_neg hne]
    have hlt : envs.length < 141 := by omega
    rw [if_pos hlt] at hts
    have h1 : (runAxis ax envs w).st.time_skip ax < 0 := by rw [hts]; omega
    have h2 : -128 ≤ (runAxis ax envs w).st.time_skip ax := by rw [hts]; omega
    exact accumulate_AvgGyro_settling ax e _ h1 h2
  · intro hn
    rw [if_pos (h16.2 hn)]


/-! ## Theorems -/

/-- C1: whenever a steady-state tick runs the gain adjuster (window finalised,
`highLimit != 0`, `error != 0`, `previousError != 0`, `error != previousError`) on an
axis with `lowLimit <= highLimit`, whatever the prior state, the resulting
`result_P64[ax]` lies in `[lowLimit*64, highLimit*64]` and the written `P8[ax]` lies in
`[lowLimit, highLimit]`. -/
theorem adjuster_result_within_limits (ax : Axis) (env : Env) (w : World)
    (hu8 : w.pid.gtune_hilimP ax < 256)
    (hle : w.pid.gtune_lolimP ax ≤ w.pid.gtune_hilimP ax)
    (hrun : runsAdjuster ax env w) :
    (w.pid.gtune_lolimP ax : Int) * 64 ≤ (calculate_Gtune false ax env w).st.result_P64 ax ∧
      (calculate_Gtune false ax env w).st.result_P64 ax ≤ (w.pid.gtune_hilimP ax : Int) * 64 ∧
      w.pid.gtune_lolimP ax ≤ (calculate_Gtune false ax env w).pid.P8 ax ∧
      (calculate_Gtune false ax env w).pid.P8 ax ≤ w.pid.gtune_hilimP ax :=
  runsAdjuster_bounds hu8 hle hrun

/-- Witness of C1: a gain far above the limit (`result_P64 = 32000`) on roll with the
default limits is brought back into `[1280, 4480]` by one adjuster run. -/
theorem adjuster_result_within_limits_witness :
    runsAdjuster Axis.roll quietEnv ⟨defaultProfile 20, lateWindow 1120 50 32000⟩ ∧
      (((defaultProfile 20).gtune_lolimP Axis.roll : Int) * 64 ≤
        (calculate_Gtune false Axis.roll quietEnv
          ⟨defaultProfile 20, lateWindow 1120 50 32000⟩).st.result_P64 Axis.roll ∧
      (calculate_Gtune false Axis.roll quietEnv
          ⟨defaultProfile 20, lateWindow 1120 50 32000⟩).st.result_P64 Axis.roll ≤
        ((defaultProfile 20).gtune_hilimP Axis.roll : Int) * 64 ∧
      (defaultProfile 20).gtune_lolimP Axis.roll ≤
        (calculate_Gtune false Axis.roll quietEnv
          ⟨defaultProfile 20, lateWindow 1120 50 32000⟩).pid.P8 Axis.roll ∧
      (calculate_Gtune false Axis.roll quietEnv
          ⟨defaultProfile 20, lateWindow 1120 50 32000⟩).pid.P8 Axis.roll ≤
        (defaultProfile 20).gtune_hilimP Axis.roll) :=
  ⟨by unfold runsAdjuster completesWindow; decide,
    adjuster_result_within_limits Axis.roll quietEnv
      ⟨defaultProfile 20, lateWindow 1120 50 32000⟩ (by decide) (by decide)
      (by unfold runsAdjuster completesWindow; decide)⟩

/-- C2 fails on the code: the initialisation pass never lowers `P8` to `gtune_hilimP`,
and the clamp of line 161 sits behind the gate of line 142. With the default limits 20 and
70 and a starting visible gain
of 100, the 141st quiet tick after the initialisation pass completes a window on roll
(whose `gtune_hilimP` is 70), yet `result_P64[roll]` is still 6400, above `70*64`. -/
theorem clamp_invariant_counterexample :
    completesWindow Axis.roll quietEnv
        (runTicks (List.replicate 140 (Axis.roll, quietEnv))
          (calculate_Gtune true Axis.roll quietEnv ⟨defaultProfile 100, zeroStatics⟩)) ∧
      (runTicks (List.replicate 141 (Axis.roll, quietEnv))
        (calculate_Gtune true Axis.roll quietEnv
          ⟨defaultProfile 100, zeroStatics⟩)).pid.gtune_hilimP Axis.roll ≠ 0 ∧
      ¬ ((runTicks (List.replicate 141 (Axis.roll, quietEnv))
          (calculate_Gtune true Axis.roll quietEnv
            ⟨defaultProfile 100, zeroStatics⟩)).st.result_P64 Axis.roll ≤
        (((runTicks (List.replicate 141 (Axis.roll, quietEnv))
          (calculate_Gtune true Axis.roll quietEnv
            ⟨defaultProfile 100, zeroStatics⟩)).pid.gtune_hilimP Axis.roll : Nat) : Int) * 64) := by
  have hts : (calculate_Gtune true Axis.roll quietEnv
      ⟨defaultProfile 100, zeroStatics⟩).st.time_skip Axis.roll = -125 := by decide
  have hold : (calculate_Gtune true Axis.roll quietEnv
      ⟨defaultProfile 100, zeroStatics⟩).st.OldError Axis.roll = 0 := by decide
  have hub := replicate_quiet_unblocked Axis.roll 140
  have hc := cadence_time_skip Axis.roll _ hts (List.replicate 140 quietEnv) hub
  obtain ⟨k1, k2⟩ := first_window_state Axis.roll _ hts hold (List.replicate 140 quietEnv) hub
    (by simp) quietEnv
  rw [← runAxis_snoc, ← List.replicate_succ', runAxis_replicate] at k1 k2
  rw [runAxis_replicate, List.length_replicate, if_pos (by decide)] at hc
  refine ⟨⟨blocked_quietEnv Axis.roll, ?_⟩, ?_, ?_⟩
  · rw [accumulate_time_skip, hc]
    decide
  · rw [k1]
    decide
  · rw [k1, k2]
    decide

/-- Session bounds the code does keep: after the initialisation pass and any sequence of
steady-state ticks, an axis with `gtune_hilimP != 0` has `lolim*64 <= result_P64` in
every state, and `result_P64 <= hilim*64` in every state provided the starting `P8` was
at most `gtune_hilimP` or the gain adjuster has run on that axis in one of the ticks. -/
theorem clamp_invariant_session (ax0 : Axis) (env0 : Env) (w0 : World) (hr : w0.pid.inRange)
    (ticks : List (Axis × Env)) (ax : Axis)
    (hhi : (calculate_Gtune true ax0 env0 w0).pid.gtune_hilimP ax ≠ 0) :
    ((runTicks ticks (calculate_Gtune true ax0 env0 w0)).pid.gtune_lolimP ax : Int) * 64 ≤
        (runTicks ticks (calculate_Gtune true ax0 env0 w0)).st.result_P64 ax ∧
      ((w0.pid.P8 ax ≤ w0.pid.gtune_hilimP ax ∨
          ∃ pre e post, ticks = pre ++ (ax, e) :: post ∧
            runsAdjuster ax e (runTicks pre (calculate_Gtune true ax0 env0 w0))) →
        (runTicks ticks (calculate_Gtune true ax0 env0 w0)).st.result_P64 ax ≤
          ((runTicks ticks (calculate_Gtune true ax0 env0 w0)).pid.gtune_hilimP ax : Int) * 64) := by
  have hcall : calculate_Gtune true ax0 env0 w0 = initRun env0 w0 := rfl
  rw [hcall] at hhi ⊢
  obtain ⟨hP8, hlo, hhi8, -⟩ := hr
  have hP8 := hP8 ax
  have hlo := hlo ax
  have hhi8 := hhi8 ax
  have hH := initRun_hilim env0 w0 ax
  have hL : (initRun env0 w0).pid.gtune_lolimP ax = w0.pid.gtune_lolimP ax := rfl
  have hR := initRun_result_P64 env0 w0 ax
  rw [toInt16_of_range (by omega) (by omega)] at hR
  have hHeq : (initRun env0 w0).pid.gtune_hilimP ax = w0.pid.gtune_hilimP ax := by
    rw [hH] at hhi ⊢
    split_ifs at hhi ⊢
    · exact absurd rfl hhi
    · rfl
  have hle : w0.pid.gtune_lolimP ax ≤ w0.pid.gtune_hilimP ax := by
    rw [hH] at hhi
    split_ifs at hhi with hc
    · exact absurd rfl hhi
    · by_contra hlt
      exact hc (Or.inl ⟨by omega, by omega⟩)
  have hu1 : (initRun env0 w0).pid.gtune_hilimP ax < 256 := by rw [hHeq]; exact hhi8
  have hle1 : (initRun env0 w0).pid.gtune_lolimP ax ≤ (initRun env0 w0).pid.gtune_hilimP ax := by
    rw [hHeq, hL]; exact hle
  obtain ⟨t1, t2, -⟩ := runTicks_limits ticks (initRun env0 w0)
  rw [t1, t2]
  obtain ⟨kb1, kb2⟩ := runTicks_keeps_bounds ticks (initRun env0 w0) ax hu1 hle1
  refine ⟨kb1 (by rw [hR, hL]; omega), ?_⟩
  rintro (hstart | ⟨pre, e, post, hsplit, hrun⟩)
  · exact kb2 (by rw [hR, hHeq]; omega)
  · subst hsplit
    rw [runTicks_append, runTicks_cons]
    obtain ⟨p1, p2, -⟩ := runTicks_limits pre (initRun env0 w0)
    have hb := runsAdjuster_bounds (by rw [p2]; exact hu1) (by rw [p1, p2]; exact hle1) hrun
    obtain ⟨q1, q2, -⟩ := tick_limits ax e (runTicks pre (initRun env0 w0))
    have hk := (runTicks_keeps_bounds post
      (calculate_Gtune false ax e (runTicks pre (initRun env0 w0))) ax
      (by rw [q2, p2]; exact hu1) (by rw [q1, q2, p1, p2]; exact hle1)).2
    rw [q2, p2] at hk
    apply hk
    have := hb.2.1
    rw [p2] at this
    exact this

/-- The session bounds at a concrete input: starting gain 30 within the default limits 20
and 70; after the initialisation pass and a quiet tick on roll both bounds hold. -/
theorem clamp_invariant_session_witness :
    ((runTicks [(Axis.roll, quietEnv)]
        (calculate_Gtune true Axis.roll quietEnv
          ⟨defaultProfile 30, zeroStatics⟩)).pid.gtune_lolimP Axis.roll : Int) * 64 ≤
        (runTicks [(Axis.roll, quietEnv)]
          (calculate_Gtune true Axis.roll quietEnv
            ⟨defaultProfile 30, zeroStatics⟩)).st.result_P64 Axis.roll ∧
      (runTicks [(Axis.roll, quietEnv)]
          (calculate_Gtune true Axis.roll quietEnv
            ⟨defaultProfile 30, zeroStatics⟩)).st.result_P64 Axis.roll ≤
        ((runTicks [(Axis.roll, quietEnv)]
          (calculate_Gtune true Axis.roll quietEnv
            ⟨defaultProfile 30, zeroStatics⟩)).pid.gtune_hilimP Axis.roll : Int) * 64 :=
  have h := clamp_invariant_session Axis.roll quietEnv ⟨defaultProfile 30, zeroStatics⟩
    (defaultProfile_inRange (by decide)) [(Axis.roll, quietEnv)] Axis.roll (by decide)
  ⟨h.1, h.2 (Or.inl (by decide))⟩

/-- C3: if at initialisation an axis has `gtune_hilimP != 0` and
`gtune_lolimP > gtune_hilimP`, the initialisation pass sets its `gtune_hilimP` to 0, and
no later sequence of calls (steady-state ticks on any axis with any inputs, or further
initialisation passes) changes its `P8` or its `result_P64`. -/
theorem disable_invariant (ax0 : Axis) (env0 : Env) (w0 : World) (i : Axis)
    (hhi : w0.pid.gtune_hilimP i ≠ 0) (hlt : w0.pid.gtune_lolimP i > w0.pid.gtune_hilimP i)
    (calls : List (Bool × Axis × Env)) :
    (calculate_Gtune true ax0 env0 w0).pid.gtune_hilimP i = 0 ∧
      (runCalls calls (calculate_Gtune true ax0 env0 w0)).pid.P8 i =
        (calculate_Gtune true ax0 env0 w0).pid.P8 i ∧
      (runCalls calls (calculate_Gtune true ax0 env0 w0)).st.result_P64 i =
        (calculate_Gtune true ax0 env0 w0).st.result_P64 i := by
  have hcall : calculate_Gtune true ax0 env0 w0 = initRun env0 w0 := rfl
  rw [hcall]
  have h0 : (initRun env0 w0).pid.gtune_hilimP i = 0 := by
    rw [initRun_hilim, if_pos (Or.inl ⟨hhi, hlt⟩)]
  have h1 : (initRun env0 w0).pid.gtune_lolimP i ≤ (initRun env0 w0).pid.P8 i := by
    rw [initRun_P8, initRun_lolim]; omega
  have h2 : (initRun env0 w0).st.result_P64 i =
      toInt16 (((initRun env0 w0).pid.P8 i : Int) * 64) := by
    rw [initRun_result_P64, initRun_P8]
  exact ⟨h0, runCalls_disabled calls (initRun env0 w0) i h0 h1 h2⟩

/-- Witness of C3: pitch configured with limits 20 and 10, then a tick on pitch, a
second initialisation pass and a tick on roll. -/
theorem disable_invariant_witness :
    (calculate_Gtune true Axis.roll quietEnv
        ⟨{ defaultProfile 5 with gtune_hilimP := fun _ => 10 },
          zeroStatics⟩).pid.gtune_hilimP Axis.pitch = 0 ∧
      (runCalls [(false, Axis.pitch, quietEnv), (true, Axis.yaw, quietEnv),
          (false, Axis.roll, quietEnv)]
        (calculate_Gtune true Axis.roll quietEnv
          ⟨{ defaultProfile 5 with gtune_hilimP := fun _ => 10 }, zeroStatics⟩)).pid.P8
          Axis.pitch =
        (calculate_Gtune true Axis.roll quietEnv
          ⟨{ defaultProfile 5 with gtune_hilimP := fun _ => 10 }, zeroStatics⟩).pid.P8
          Axis.pitch ∧
      (runCalls [(false, Axis.pitch, quietEnv), (true, Axis.yaw, quietEnv),
          (false, Axis.roll, quietEnv)]
        (calculate_Gtune true Axis.roll quietEnv
          ⟨{ defaultProfile 5 with gtune_hilimP := fun _ => 10 }, zeroStatics⟩)).st.result_P64
          Axis.pitch =
        (calculate_Gtune true Axis.roll quietEnv
          ⟨{ defaultProfile 5 with gtune_hilimP := fun _ => 10 }, zeroStatics⟩).st.result_P64
          Axis.pitch :=
  disable_invariant Axis.roll quietEnv
    ⟨{ defaultProfile 5 with gtune_hilimP := fun _ => 10 }, zeroStatics⟩ Axis.pitch
    (by decide) (by decide)
    [(false, Axis.pitch, quietEnv), (true, Axis.yaw, quietEnv), (false, Axis.roll, quietEnv)]

/-- C4: the initialisation pass sets `gtune_hilimP[i]` to 0 exactly when the old value is
non-zero and below `gtune_lolimP[i]`, or `i` is yaw and `motorCount < 4`, and leaves it
unchanged otherwise; hence yaw is disabled below four motors, and afterwards every axis
has `gtune_hilimP = 0` or `gtune_lolimP <= gtune_hilimP`. -/
theorem init_validates_limits (ax : Axis) (env : Env) (w : World) :
    (∀ i, (calculate_Gtune true ax env w).pid.gtune_hilimP i =
        if (w.pid.gtune_hilimP i ≠ 0 ∧ w.pid.gtune_lolimP i > w.pid.gtune_hilimP i) ∨
            (i = Axis.yaw ∧ env.motorCount < 4) then 0 else w.pid.gtune_hilimP i) ∧
      (env.motorCount < 4 → (calculate_Gtune true ax env w).pid.gtune_hilimP Axis.yaw = 0) ∧
      (∀ i, (calculate_Gtune true ax env w).pid.gtune_hilimP i = 0 ∨
        (calculate_Gtune true ax env w).pid.gtune_lolimP i ≤
          (calculate_Gtune true ax env w).pid.gtune_hilimP i) := by
  have hcall : calculate_Gtune true ax env w = initRun env w := rfl
  rw [hcall]
  refine ⟨?_, ?_, ?_⟩
  · intro i
    rw [initRun_hilim]
    simp only [FD_YAW, and_comm]
  · intro hm
    rw [initRun_hilim]
    simp [FD_YAW, hm]
  · intro i
    rw [initRun_hilim, initRun_lolim]
    split_ifs with hc
    · exact Or.inl rfl
    · by_cases h0 : w.pid.gtune_hilimP i = 0
      · exact Or.inl h0
      · right
        by_contra hlt
        exact hc (Or.inl ⟨h0, by omega⟩)

/-- C5: after a call with `inirun = true`, whatever `ax` is, every axis has
`P8 = max(old P8, gtune_lolimP)`, `result_P64 = P8 * 64`, `OldError = 0` and
`time_skip = -125`; `gtune_lolimP` and `gtune_pwr` are unchanged. -/
theorem init_postcondition (ax : Axis) (env : Env) (w : World) (hr : w.pid.inRange) :
    (∀ i, (calculate_Gtune true ax env w).pid.P8 i = max (w.pid.P8 i) (w.pid.gtune_lolimP i) ∧
        (calculate_Gtune true ax env w).st.result_P64 i =
          ((calculate_Gtune true ax env w).pid.P8 i : Int) * 64 ∧
        (calculate_Gtune true ax env w).st.OldError i = 0 ∧
        (calculate_Gtune true ax env w).st.time_skip i = -125) ∧
      (calculate_Gtune true ax env w).pid.gtune_lolimP = w.pid.gtune_lolimP ∧
      (calculate_Gtune true ax env w).pid.gtune_pwr = w.pid.gtune_pwr := by
  have hcall : calculate_Gtune true ax env w = initRun env w := rfl
  rw [hcall]
  refine ⟨fun i => ⟨initRun_P8 env w i, ?_, initRun_OldError env w i, initRun_time_skip env w i⟩,
    rfl, rfl⟩
  rw [initRun_result_P64, initRun_P8]
  obtain ⟨h1, h2, -, -⟩ := hr
  have := h1 i
  have := h2 i
  apply toInt16_of_range <;> omega

/-- Witness of C5: the default limits with visible gain 5 on a tricopter. -/
theorem init_postcondition_witness :
    (∀ i, (calculate_Gtune true Axis.yaw { quietEnv with motorCount := 3 }
          ⟨defaultProfile 5, zeroStatics⟩).pid.P8 i =
          max ((defaultProfile 5).P8 i) ((defaultProfile 5).gtune_lolimP i) ∧
        (calculate_Gtune true Axis.yaw { quietEnv with motorCount := 3 }
          ⟨defaultProfile 5, zeroStatics⟩).st.result_P64 i =
          ((calculate_Gtune true Axis.yaw { quietEnv with motorCount := 3 }
            ⟨defaultProfile 5, zeroStatics⟩).pid.P8 i : Int) * 64 ∧
        (calculate_Gtune true Axis.yaw { quietEnv with motorCount := 3 }
          ⟨defaultProfile 5, zeroStatics⟩).st.OldError i = 0 ∧
        (calculate_Gtune true Axis.yaw { quietEnv with motorCount := 3 }
          ⟨defaultProfile 5, zeroStatics⟩).st.time_skip i = -125) ∧
      (calculate_Gtune true Axis.yaw { quietEnv with motorCount := 3 }
          ⟨defaultProfile 5, zeroStatics⟩).pid.gtune_lolimP = (defaultProfile 5).gtune_lolimP ∧
      (calculate_Gtune true Axis.yaw { quietEnv with motorCount := 3 }
          ⟨defaultProfile 5, zeroStatics⟩).pid.gtune_pwr = (defaultProfile 5).gtune_pwr :=
  init_postcondition Axis.yaw { quietEnv with motorCount := 3 } ⟨defaultProfile 5, zeroStatics⟩
    (defaultProfile_inRange (by decide))

/-- C6: running the initialisation pass twice in a row (same `motorCount`) leaves exactly
the profile and statics that running it once leaves. -/
theorem init_idempotent (ax1 ax2 : Axis) (env1 env2 : Env) (w : World)
    (hm : env2.motorCount = env1.motorCount) :
    calculate_Gtune true ax2 env2 (calculate_Gtune true ax1 env1 w) =
      calculate_Gtune true ax1 env1 w := by
  have h1 : ∀ (a : Axis) (e : Env) (v : World), calculate_Gtune true a e v = initRun e v :=
    fun _ _ _ => rfl
  rw [h1, h1]
  apply World.ext_fields
  · intro i
    rw [initRun_P8, initRun_lolim, initRun_P8]
    omega
  · intro i; rfl
  · intro i
    rw [initRun_hilim, initRun_lolim, initRun_hilim, hm]
    split_ifs <;> rfl
  · rfl
  · intro i; rw [initRun_time_skip, initRun_time_skip]
  · intro i; rw [initRun_OldError, initRun_OldError]
  · intro i
    rw [initRun_result_P64, initRun_lolim, initRun_P8, initRun_result_P64]
    congr 2
    omega
  · intro i; rfl

/-- Witness of C6: two initialisation passes on a tricopter with inverted roll limits. -/
theorem init_idempotent_witness :
    calculate_Gtune true Axis.pitch { quietEnv with motorCount := 3 }
        (calculate_Gtune true Axis.roll { quietEnv with motorCount := 3, angleMode := true }
          ⟨{ defaultProfile 5 with gtune_hilimP := fun _ => 10 }, lateWindow 7 8 9⟩) =
      calculate_Gtune true Axis.roll { quietEnv with motorCount := 3, angleMode := true }
        ⟨{ defaultProfile 5 with gtune_hilimP := fun _ => 10 }, lateWindow 7 8 9⟩ :=
  init_idempotent Axis.roll Axis.pitch { quietEnv with motorCount := 3, angleMode := true }
    { quietEnv with motorCount := 3 }
    ⟨{ defaultProfile 5 with gtune_hilimP := fun _ => 10 }, lateWindow 7 8 9⟩ rfl

/-- C7: a steady-state tick with a non-zero stick command on `ax`, or with `ax` roll or
pitch while ANGLE or HORIZON mode is active, sets `OldError[ax] = 0` and
`time_skip[ax] = -125` and changes nothing else: the profile, `result_P64`, `AvgGyro`
and the entries of the other axes are as before. -/
theorem block_reset_frame (ax : Axis) (env : Env) (w : World)
    (h : env.rcCommand ax ≠ 0 ∨
      (ax ≠ Axis.yaw ∧ (env.angleMode = true ∨ env.horizonMode = true))) :
    (calculate_Gtune false ax env w).st.OldError ax = 0 ∧
      (calculate_Gtune false ax env w).st.time_skip ax = -125 ∧
      (calculate_Gtune false ax env w).pid = w.pid ∧
      (calculate_Gtune false ax env w).st.result_P64 = w.st.result_P64 ∧
      (calculate_Gtune false ax env w).st.AvgGyro = w.st.AvgGyro ∧
      (∀ j, j ≠ ax → (calculate_Gtune false ax env w).st.OldError j = w.st.OldError j ∧
        (calculate_Gtune false ax env w).st.time_skip j = w.st.time_skip j) := by
  rw [tick_blocked w ((blocked_iff env ax).2 h)]
  refine ⟨by simp [blockReset], by simp [blockReset], rfl, rfl, rfl, fun j hj => ?_⟩
  simp [blockReset, setAt_ne _ _ hj]

/-- Witness of C7: roll in ANGLE mode with centred sticks, one tick before a window
would have completed. -/
theorem block_reset_frame_witness :
    (calculate_Gtune false Axis.roll { quietEnv with angleMode := true }
        ⟨defaultProfile 20, lateWindow 1120 50 1280⟩).st.OldError Axis.roll = 0 ∧
      (calculate_Gtune false Axis.roll { quietEnv with angleMode := true }
        ⟨defaultProfile 20, lateWindow 1120 50 1280⟩).st.time_skip Axis.roll = -125 ∧
      (calculate_Gtune false Axis.roll { quietEnv with angleMode := true }
        ⟨defaultProfile 20, lateWindow 1120 50 1280⟩).pid = defaultProfile 20 ∧
      (calculate_Gtune false Axis.roll { quietEnv with angleMode := true }
        ⟨defaultProfile 20, lateWindow 1120 50 1280⟩).st.result_P64 =
          (lateWindow 1120 50 1280).result_P64 ∧
      (calculate_Gtune false Axis.roll { quietEnv with angleMode := true }
        ⟨defaultProfile 20, lateWindow 1120 50 1280⟩).st.AvgGyro =
          (lateWindow 1120 50 1280).AvgGyro ∧
      (∀ j, j ≠ Axis.roll →
        (calculate_Gtune false Axis.roll { quietEnv with angleMode := true }
          ⟨defaultProfile 20, lateWindow 1120 50 1280⟩).st.OldError j =
            (lateWindow 1120 50 1280).OldError j ∧
        (calculate_Gtune false Axis.roll { quietEnv with angleMode := true }
          ⟨defaultProfile 20, lateWindow 1120 50 1280⟩).st.time_skip j =
            (lateWindow 1120 50 1280).time_skip j) :=
  block_reset_frame Axis.roll { quietEnv with angleMode := true }
    ⟨defaultProfile 20, lateWindow 1120 50 1280⟩ (Or.inr ⟨by decide, Or.inl rfl⟩)

/-- C8: after a reset (`time_skip[ax] = -125`), on the `n`-th consecutive unblocked tick
the sample is folded into the accumulator exactly when `n >= 126`, and the window is
evaluated exactly when `n >= 141` and `n - 141` is a multiple of 16; those are the ticks
that reset `time_skip[ax]` to 0 (every other tick increments it), store the window error
in `OldError[ax]` and divide the accumulator by 16. Earlier than tick 126 `AvgGyro[ax]`
is untouched; from tick 126 on the tick adds its quantised sample to it (cleared first
when the tick opens a window), so that it holds the sum of the quantised samples of the
current window, and after an evaluation that sum divided by 16. -/
theorem window_cadence (ax : Axis) (w : World) (h0 : w.st.time_skip ax = -125)
    (envs : List Env) (e : Env) (hub : ∀ e' ∈ envs, blocked e' ax = false)
    (he : blocked e ax = false) :
    (foldsSample ax e (runAxis ax envs w) ↔ 126 ≤ envs.length + 1) ∧
      (completesWindow ax e (runAxis ax envs w) ↔
        141 ≤ envs.length + 1 ∧ (envs.length + 1 - 141) % 16 = 0) ∧
      (calculate_Gtune false ax e (runAxis ax envs w)).st.time_skip ax =
        (if 141 ≤ envs.length + 1 ∧ (envs.length + 1 - 141) % 16 = 0 then 0
          else (runAxis ax envs w).st.time_skip ax + 1) ∧
      (calculate_Gtune false ax e (runAxis ax envs w)).st.OldError ax =
        (if 141 ≤ envs.length + 1 ∧ (envs.length + 1 - 141) % 16 = 0
          then windowError ax e (runAxis ax envs w)
          else (runAxis ax envs w).st.OldError ax) ∧
      (envs.length + 1 < 126 →
        (calculate_Gtune false ax e (runAxis ax envs w)).st.AvgGyro ax =
          (runAxis ax envs w).st.AvgGyro ax) ∧
      (141 ≤ envs.length + 1 ∧ (envs.length + 1 - 141) % 16 = 0 →
        (calculate_Gtune false ax e (runAxis ax envs w)).st.AvgGyro ax =
          toInt32 (((accumulate ax e (runAxis ax envs w).st).AvgGyro ax).tdiv 16)) ∧
      (126 ≤ envs.length + 1 →
        (accumulate ax e (runAxis ax envs w).st).AvgGyro ax =
            (if (runAxis ax envs w).st.time_skip ax = 0 then 0
              else (runAxis ax envs w).st.AvgGyro ax) + chop ax e ∧
          (accumulate ax e (runAxis ax envs w).st).AvgGyro ax =
            chopSum ax ((envs ++ [e]).drop (125 + 16 * ((envs.length + 1 - 126) / 16))) ∧
          (calculate_Gtune false ax e (runAxis ax envs w)).st.AvgGyro ax =
            (if 141 ≤ envs.length + 1 ∧ (envs.length + 1 - 141) % 16 = 0
              then (chopSum ax
                ((envs ++ [e]).drop (125 + 16 * ((envs.length + 1 - 126) / 16)))).tdiv 16
              else chopSum ax
                ((envs ++ [e]).drop (125 + 16 * ((envs.length + 1 - 126) / 16))))) := by
  obtain ⟨c1, c2, c3, c4, c5, c6⟩ := cadence_counter ax w h0 envs e hub he
  refine ⟨c1, c2, c3, c4, c5, c6, fun hn => ?_⟩
  obtain ⟨a1, a2⟩ := cadence_accumulator ax w h0 envs e hub hn
  refine ⟨a1, a2, ?_⟩
  have hlen : ((envs ++ [e]).drop (125 + 16 * ((envs.length + 1 - 126) / 16))).length ≤ 16 := by
    rw [List.length_drop, List.length_append, List.length_singleton]
    omega
  have hs := chopSum_range ax ((envs ++ [e]).drop (125 + 16 * ((envs.length + 1 - 126) / 16)))
  by_cases hc : 141 ≤ envs.length + 1 ∧ (envs.length + 1 - 141) % 16 = 0
  · rw [if_pos hc, c6 hc, a2, tdiv_cases _ _ (by norm_num)]
    apply toInt32_of_range <;> split_ifs <;> omega
  · rw [if_neg hc, ← a2]
    rw [tick_unblocked _ he, tuneTick_AvgGyro, if_neg]
    intro h16
    exact hc (c2.1 ⟨he, by rw [accumulate_time_skip]; exact h16⟩)

/-- Witness of C8: the 141st unblocked tick on roll after the initialisation pass, with
gyro reading 128 throughout: it folds its sample, completes the window of the ticks 126
to 141 and leaves their average 128 in `AvgGyro[roll]`. -/
theorem window_cadence_witness :
    foldsSample Axis.roll (gyroEnv 128) (runAxis Axis.roll (List.replicate 140 (gyroEnv 128))
        (calculate_Gtune true Axis.roll quietEnv ⟨defaultProfile 20, zeroStatics⟩)) ∧
      completesWindow Axis.roll (gyroEnv 128)
        (runAxis Axis.roll (List.replicate 140 (gyroEnv 128))
          (calculate_Gtune true Axis.roll quietEnv ⟨defaultProfile 20, zeroStatics⟩)) ∧
      (accumulate Axis.roll (gyroEnv 128) (runAxis Axis.roll (List.replicate 140 (gyroEnv 128))
        (calculate_Gtune true Axis.roll quietEnv
          ⟨defaultProfile 20, zeroStatics⟩)).st).AvgGyro Axis.roll = 2048 ∧
      (calculate_Gtune false Axis.roll (gyroEnv 128)
        (runAxis Axis.roll (List.replicate 140 (gyroEnv 128))
          (calculate_Gtune true Axis.roll quietEnv
            ⟨defaultProfile 20, zeroStatics⟩))).st.AvgGyro Axis.roll = 128 := by
  obtain ⟨h1, h2, -, -, -, -, h7⟩ := window_cadence Axis.roll
    (calculate_Gtune true Axis.roll quietEnv ⟨defaultProfile 20, zeroStatics⟩) (by decide)
    (List.replicate 140 (gyroEnv 128)) (gyroEnv 128)
    (replicate_unblocked (blocked_gyroEnv 128 Axis.roll) 140) (blocked_gyroEnv 128 Axis.roll)
  have hlen : (List.replicate 140 (gyroEnv 128)).length = 140 := List.length_replicate 140 _
  rw [hlen] at h1 h2 h7
  obtain ⟨-, a2, a3⟩ := h7 (by decide)
  have hsplit : List.replicate 140 (gyroEnv 128) =
      List.replicate 125 (gyroEnv 128) ++ List.replicate 15 (gyroEnv 128) :=
    List.replicate_add 125 15 (gyroEnv 128)
  have hdrop : (List.replicate 140 (gyroEnv 128) ++ [gyroEnv 128]).drop
      (125 + 16 * ((140 + 1 - 126) / 16)) =
      List.replicate 15 (gyroEnv 128) ++ [gyroEnv 128] := by
    rw [hsplit, List.append_assoc]
    exact List.drop_left' (List.length_replicate 125 _)
  have hs : chopSum Axis.roll (List.replicate 15 (gyroEnv 128) ++ [gyroEnv 128]) = 2048 := by
    decide
  rw [hdrop, hs] at a2 a3
  rw [if_pos (by decide)] at a3
  exact ⟨h1.2 (by decide), h2.2 (by decide), a2, by rw [a3]; decide⟩

/-- C9: when the gain adjuster runs with `error` and `OldError` of the same sign and
`|error| - |OldError|` above the threshold (20 on yaw, 10 on roll and pitch), the new
`result_P64[ax]` is `constrain(old + 64 + gtune_pwr, lolim*64, hilim*64)` and the new
`P8[ax]` is that value shifted right by 6 (for `uint8_t` profile fields, an `int16_t`
`OldError` and a prior `result_P64` in `[0, 255*64]`). -/
theorem increase_step (ax : Axis) (env : Env) (w : World) (hr : w.pid.inRange)
    (hold : -32768 ≤ w.st.OldError ax ∧ w.st.OldError ax ≤ 32767)
    (hP : 0 ≤ w.st.result_P64 ax ∧ w.st.result_P64 ax ≤ 255 * 64)
    (hrun : runsAdjuster ax env w)
    (hsign : (0 < windowError ax env w ∧ 0 < w.st.OldError ax) ∨
      (windowError ax env w < 0 ∧ w.st.OldError ax < 0))
    (hgrow : |windowError ax env w| - |w.st.OldError ax| > (if ax = Axis.yaw then 20 else 10)) :
    (calculate_Gtune false ax env w).st.result_P64 ax =
        constrain (w.st.result_P64 ax + 64 + (w.pid.gtune_pwr : Int))
          ((w.pid.gtune_lolimP ax : Int) * 64) ((w.pid.gtune_hilimP ax : Int) * 64) ∧
      ((calculate_Gtune false ax env w).pid.P8 ax : Int) =
        (calculate_Gtune false ax env w).st.result_P64 ax >>> (6 : Nat) := by
  obtain ⟨h1, h2⟩ := tick_runsAdjuster_exact hr hrun
  refine ⟨?_, h2⟩
  rw [h1, stepP64_grow (windowError_range ax env w) hold hsign hgrow]
  have hpwr := hr.2.2.2
  rw [toInt16_of_range (by omega) (by omega), add_assoc]

/-- Witness of C9: roll, limits 20 and 70, strength 0, `result_P64 = 1280`,
`OldError = 50`, window error 70: the tick leaves `result_P64 = 1344` and `P8 = 21`. -/
theorem increase_step_witness :
    windowError Axis.roll quietEnv ⟨defaultProfile 20, lateWindow 1120 50 1280⟩ = 70 ∧
      (calculate_Gtune false Axis.roll quietEnv
        ⟨defaultProfile 20, lateWindow 1120 50 1280⟩).st.result_P64 Axis.roll = 1344 ∧
      (calculate_Gtune false Axis.roll quietEnv
        ⟨defaultProfile 20, lateWindow 1120 50 1280⟩).pid.P8 Axis.roll = 21 := by
  have he : windowError Axis.roll quietEnv ⟨defaultProfile 20, lateWindow 1120 50 1280⟩ = 70 := by
    decide
  have h := increase_step Axis.roll quietEnv ⟨defaultProfile 20, lateWindow 1120 50 1280⟩
    (defaultProfile_inRange (by decide)) (by decide) (by decide)
    (by unfold runsAdjuster completesWindow; decide) (Or.inl ⟨by decide, by decide⟩)
    (by rw [he]; decide)
  have hc : constrain ((lateWindow 1120 50 1280).result_P64 Axis.roll + 64 +
      ((defaultProfile 20).gtune_pwr : Int)) (((defaultProfile 20).gtune_lolimP Axis.roll : Int) * 64)
      (((defaultProfile 20).gtune_hilimP Axis.roll : Int) * 64) = 1344 := by decide
  obtain ⟨h1, h2⟩ := h
  rw [hc] at h1
  rw [h1] at h2
  refine ⟨he, h1, ?_⟩
  have h3 : (1344 : Int) >>> (6 : Nat) = 21 := by decide
  rw [h3] at h2
  exact_mod_cast h2

/-- C10: when the gain adjuster runs with `error` and `OldError` of the same sign and
`|error| - |OldError|` below minus the threshold, the new `result_P64[ax]` is
`constrain(old - (64 + gtune_pwr), lolim*64, hilim*64)` on yaw (threshold 20) and
`constrain(old - 32, lolim*64, hilim*64)` on roll and pitch (threshold 10), whatever
`gtune_pwr` is. -/
theorem decrease_step_asymmetric (ax : Axis) (env : Env) (w : World) (hr : w.pid.inRange)
    (hold : -32768 ≤ w.st.OldError ax ∧ w.st.OldError ax ≤ 32767)
    (hP : 0 ≤ w.st.result_P64 ax ∧ w.st.result_P64 ax ≤ 255 * 64)
    (hrun : runsAdjuster ax env w)
    (hsign : (0 < windowError ax env w ∧ 0 < w.st.OldError ax) ∨
      (windowError ax env w < 0 ∧ w.st.OldError ax < 0))
    (hshrink : |windowError ax env w| - |w.st.OldError ax| <
      -(if ax = Axis.yaw then 20 else 10)) :
    (calculate_Gtune false ax env w).st.result_P64 ax =
      constrain
        (if ax = Axis.yaw then w.st.result_P64 ax - (64 + (w.pid.gtune_pwr : Int))
          else w.st.result_P64 ax - 32)
        ((w.pid.gtune_lolimP ax : Int) * 64) ((w.pid.gtune_hilimP ax : Int) * 64) := by
  obtain ⟨h1, -⟩ := tick_runsAdjuster_exact hr hrun
  rw [h1, stepP64_shrink (windowError_range ax env w) hold hsign hshrink]
  have hpwr := hr.2.2.2
  split_ifs <;> rw [toInt16_of_range (by omega) (by omega)]

/-- Witness of C10: yaw with strength 7, `result_P64 = 2000`, `OldError = 100`, window
error 50: the gain drops by `64 + 7` to 1929, not by 32. -/
theorem decrease_step_asymmetric_witness :
    windowError Axis.yaw quietEnv
        ⟨{ defaultProfile 31 with gtune_pwr := 7 }, lateWindow (-800) 100 2000⟩ = 50 ∧
      (calculate_Gtune false Axis.yaw quietEnv
        ⟨{ defaultProfile 31 with gtune_pwr := 7 }, lateWindow (-800) 100 2000⟩).st.result_P64
          Axis.yaw = 1929 := by
  have he : windowError Axis.yaw quietEnv
      ⟨{ defaultProfile 31 with gtune_pwr := 7 }, lateWindow (-800) 100 2000⟩ = 50 := by
    decide
  have h := decrease_step_asymmetric Axis.yaw quietEnv
    ⟨{ defaultProfile 31 with gtune_pwr := 7 }, lateWindow (-800) 100 2000⟩
    ⟨fun i => by cases i <;> decide, fun i => by cases i <;> decide,
      fun i => by cases i <;> decide, by decide⟩
    (by decide) (by decide)
    (by unfold runsAdjuster completesWindow; decide) (Or.inl ⟨by decide, by decide⟩)
    (by rw [he]; decide)
  refine ⟨he, ?_⟩
  rw [h]
  decide

/-- C11: when the gain adjuster runs with `error` and `OldError` of opposite signs, then
on roll and pitch with `| |error| - |OldError| | > 10` the new `result_P64[ax]` is
`constrain(old - 32, lolim*64, hilim*64)`, whereas on yaw no step is applied whatever the
magnitudes: the new `result_P64[yaw]` is `constrain(old, lolim*64, hilim*64)`. -/
theorem anti_wobble_step (ax : Axis) (env : Env) (w : World) (hr : w.pid.inRange)
    (hold : -32768 ≤ w.st.OldError ax ∧ w.st.OldError ax ≤ 32767)
    (hP : 0 ≤ w.st.result_P64 ax ∧ w.st.result_P64 ax ≤ 255 * 64)
    (hrun : runsAdjuster ax env w)
    (hsign : (0 < windowError ax env w ∧ w.st.OldError ax < 0) ∨
      (windowError ax env w < 0 ∧ 0 < w.st.OldError ax)) :
    (ax ≠ Axis.yaw → |(|windowError ax env w| - |w.st.OldError ax|)| > 10 →
        (calculate_Gtune false ax env w).st.result_P64 ax =
          constrain (w.st.result_P64 ax - 32)
            ((w.pid.gtune_lolimP ax : Int) * 64) ((w.pid.gtune_hilimP ax : Int) * 64)) ∧
      (ax = Axis.yaw →
        (calculate_Gtune false ax env w).st.result_P64 ax =
          constrain (w.st.result_P64 ax)
            ((w.pid.gtune_lolimP ax : Int) * 64) ((w.pid.gtune_hilimP ax : Int) * 64)) := by
  obtain ⟨h1, -⟩ := tick_runsAdjuster_exact hr hrun
  rw [h1, stepP64_opposite (windowError_range ax env w) hold hsign]
  constructor
  · intro hax hbig
    rw [if_neg hax] at *
    rw [if_pos ⟨hbig, hax⟩, toInt16_of_range (by omega) (by omega)]
  · intro hax
    rw [if_neg (fun h => h.2 hax)]

/-- Witness of C11: roll with `OldError = 5` and window error -40 drops
`result_P64` from 2000 to 1968. -/
theorem anti_wobble_step_witness :
    windowError Axis.roll quietEnv ⟨defaultProfile 31, lateWindow (-640) 5 2000⟩ = -40 ∧
      (calculate_Gtune false Axis.roll quietEnv
        ⟨defaultProfile 31, lateWindow (-640) 5 2000⟩).st.result_P64 Axis.roll = 1968 := by
  have he : windowError Axis.roll quietEnv
      ⟨defaultProfile 31, lateWindow (-640) 5 2000⟩ = -40 := by decide
  have h := (anti_wobble_step Axis.roll quietEnv ⟨defaultProfile 31, lateWindow (-640) 5 2000⟩
    (defaultProfile_inRange (by decide)) (by decide) (by decide)
    (by unfold runsAdjuster completesWindow; decide) (Or.inr ⟨by decide, by decide⟩)).1
    (by decide) (by rw [he]; decide)
  refine ⟨he, ?_⟩
  rw [h]
  decide

/-- C12: on a tick that finalises a window, `OldError[ax]` afterwards is the error of the
window just completed, whether or not the adjuster ran; and if `gtune_hilimP[ax] == 0`,
or that error is 0, or `OldError[ax]` was 0, or the two are equal, then `result_P64` and
the profile (so `P8`) are unchanged. -/
theorem skipped_evaluation (ax : Axis) (env : Env) (w : World)
    (hc : completesWindow ax env w) :
    (calculate_Gtune false ax env w).st.OldError ax = windowError ax env w ∧
      (w.pid.gtune_hilimP ax = 0 ∨ windowError ax env w = 0 ∨ w.st.OldError ax = 0 ∨
          windowError ax env w = w.st.OldError ax →
        (calculate_Gtune false ax env w).st.result_P64 = w.st.result_P64 ∧
          (calculate_Gtune false ax env w).pid.P8 = w.pid.P8 ∧
          (calculate_Gtune false ax env w).pid = w.pid) := by
  refine ⟨tick_completes_OldError hc, fun hskip => ?_⟩
  obtain ⟨g1, g2⟩ := tick_gain_unchanged (not_runsAdjuster_of_skip hskip)
  exact ⟨g2, by rw [g1], g1⟩

/-- Witness of C12: the spec's first window, `OldError = 0` and window error 50: the
adjuster is skipped and `OldError` becomes 50. -/
theorem skipped_evaluation_witness :
    (calculate_Gtune false Axis.roll quietEnv
        ⟨defaultProfile 20, lateWindow 800 0 1280⟩).st.OldError Axis.roll = 50 ∧
      (calculate_Gtune false Axis.roll quietEnv
        ⟨defaultProfile 20, lateWindow 800 0 1280⟩).st.result_P64 Axis.roll = 1280 ∧
      (calculate_Gtune false Axis.roll quietEnv
        ⟨defaultProfile 20, lateWindow 800 0 1280⟩).pid.P8 Axis.roll = 20 := by
  have he : windowError Axis.roll quietEnv ⟨defaultProfile 20, lateWindow 800 0 1280⟩ = 50 := by
    decide
  obtain ⟨h1, h2⟩ := skipped_evaluation Axis.roll quietEnv
    ⟨defaultProfile 20, lateWindow 800 0 1280⟩ (by unfold completesWindow; decide)
  obtain ⟨h3, h4, -⟩ := h2 (Or.inr (Or.inr (Or.inl rfl)))
  rw [h1, h3, h4]
  exact ⟨he, rfl, rfl⟩

/-- C14: on yaw with a zero stick command the tick is never blocked: whatever the ANGLE
and HORIZON flags are, the resulting state is the one of the unblocked branch, the same
for every setting of the flags; the counter advances (or wraps to 0 at 16) and
`OldError[yaw]` is only replaced by a completed window's error, never reset. -/
theorem yaw_ignores_attitude_hold (env : Env) (w : World) (a h : Bool)
    (h0 : env.rcCommand Axis.yaw = 0) :
    blocked { env with angleMode := a, horizonMode := h } Axis.yaw = false ∧
      calculate_Gtune false Axis.yaw { env with angleMode := a, horizonMode := h } w =
        calculate_Gtune false Axis.yaw { env with angleMode := false, horizonMode := false } w ∧
      calculate_Gtune false Axis.yaw { env with angleMode := a, horizonMode := h } w =
        tuneTick Axis.yaw env w ∧
      (calculate_Gtune false Axis.yaw { env with angleMode := a, horizonMode := h } w).st.time_skip
          Axis.yaw =
        (if toInt8 (w.st.time_skip Axis.yaw + 1) = 16 then 0
          else toInt8 (w.st.time_skip Axis.yaw + 1)) ∧
      (calculate_Gtune false Axis.yaw { env with angleMode := a, horizonMode := h } w).st.OldError
          Axis.yaw =
        (if toInt8 (w.st.time_skip Axis.yaw + 1) = 16 then windowError Axis.yaw env w
          else w.st.OldError Axis.yaw) := by
  have hb : ∀ a' h' : Bool,
      blocked { env with angleMode := a', horizonMode := h' } Axis.yaw = false := by
    intro a' h'
    simp [blocked, FD_YAW, h0]
  have ht : ∀ a' h' : Bool,
      tuneTick Axis.yaw { env with angleMode := a', horizonMode := h' } w =
        tuneTick Axis.yaw env w := fun _ _ => rfl
  refine ⟨hb a h, ?_, ?_, ?_, ?_⟩
  · rw [tick_unblocked w (hb a h), tick_unblocked w (hb false false), ht a h, ht false false]
  · rw [tick_unblocked w (hb a h), ht a h]
  · rw [tick_unblocked w (hb a h), ht a h, tuneTick_time_skip]
  · rw [tick_unblocked w (hb a h), ht a h, tuneTick_OldError]

/-- Witness of C14: yaw in ANGLE mode with centred sticks completes its window. -/
theorem yaw_ignores_attitude_hold_witness :
    blocked { quietEnv with angleMode := true, horizonMode := false } Axis.yaw = false ∧
      (calculate_Gtune false Axis.yaw { quietEnv with angleMode := true, horizonMode := false }
        ⟨defaultProfile 20, lateWindow (-800) 100 1280⟩).st.time_skip Axis.yaw = 0 := by
  obtain ⟨h1, -, -, h4, -⟩ := yaw_ignores_attitude_hold quietEnv
    ⟨defaultProfile 20, lateWindow (-800) 100 1280⟩ true false rfl
  refine ⟨h1, ?_⟩
  rw [h4]
  decide

/-- C13: in every state reached from an initialisation pass (on a `uint8_t` profile) by
any sequence of calls, steady-state ticks or further initialisation passes, every axis
has `P8[i] = result_P64[i] >> 6`. -/
theorem write_back_consistency (ax0 : Axis) (env0 : Env) (w0 : World) (hr : w0.pid.inRange)
    (calls : List (Bool × Axis × Env)) (i : Axis) :
    ((runCalls calls (calculate_Gtune true ax0 env0 w0)).pid.P8 i : Int) =
      (runCalls calls (calculate_Gtune true ax0 env0 w0)).st.result_P64 i >>> (6 : Nat) := by
  have hcall : calculate_Gtune true ax0 env0 w0 = initRun env0 w0 := rfl
  rw [hcall]
  exact ((runCalls_keeps_GainInv calls _ (initRun_GainInv env0 w0 hr)).2 i).2.2

/-- Witness of C13: an initialisation pass on stale statics, then a tick on roll, a
second pass and a tick on yaw. -/
theorem write_back_consistency_witness :
    ((runCalls [(false, Axis.roll, gyroEnv 1280), (true, Axis.yaw, quietEnv),
        (false, Axis.yaw, quietEnv)]
      (calculate_Gtune true Axis.roll quietEnv
        ⟨defaultProfile 5, lateWindow 7 8 9⟩)).pid.P8 Axis.roll : Int) =
      (runCalls [(false, Axis.roll, gyroEnv 1280), (true, Axis.yaw, quietEnv),
        (false, Axis.yaw, quietEnv)]
      (calculate_Gtune true Axis.roll quietEnv
        ⟨defaultProfile 5, lateWindow 7 8 9⟩)).st.result_P64 Axis.roll >>> (6 : Nat) :=
  write_back_consistency Axis.roll quietEnv ⟨defaultProfile 5, lateWindow 7 8 9⟩
    (defaultProfile_inRange (by decide))
    [(false, Axis.roll, gyroEnv 1280), (true, Axis.yaw, quietEnv), (false, Axis.yaw, quietEnv)]
    Axis.roll

/-- C15 fails on the code at one input: on yaw, a window of 16 samples all equal to
-32768 has quantised sum -524288 and average -32768; its negation 32768 does not fit the
`int16_t error`, and the value stored in `OldError[yaw]` is -32768, whereas the claim's
value, minus the sum divided by 16, is 32768. -/
theorem yaw_window_error_overflow :
    (runAxis Axis.yaw (List.replicate 16 (gyroEnv (-32768)))
        ⟨defaultProfile 20, zeroStatics⟩).st.OldError Axis.yaw = -32768 ∧
      -((chopSum Axis.yaw (List.replicate 16 (gyroEnv (-32768)))).tdiv 16) = 32768 := by
  have hb := blocked_gyroEnv (-32768) Axis.yaw
  obtain ⟨h1, -, h3⟩ := window_close Axis.yaw ⟨defaultProfile 20, zeroStatics⟩ rfl
    (List.replicate 15 (gyroEnv (-32768))) (replicate_unblocked hb 15) (by simp)
    (gyroEnv (-32768)) hb
  have hs : chopSum Axis.yaw (List.replicate 15 (gyroEnv (-32768)) ++ [gyroEnv (-32768)]) =
      -524288 := by decide
  rw [List.replicate_succ', runAxis_snoc, tick_completes_OldError h1, h3, hs]
  exact ⟨by decide, by decide⟩

/-- C16: in every state reached from the zero-initialised statics by any sequence of
calls, on every axis `|AvgGyro[ax]| <= 16 * 32768`, and `|AvgGyro[ax]| <= 32768 *
time_skip[ax]` while `time_skip[ax] > 0`; so the addition of line 122/123 never leaves
the `int32_t` range: the accumulator after it is the exact sum. -/
theorem accumulator_never_overflows (pid : pidProfile_t) (calls : List (Bool × Axis × Env))
    (ax : Axis) :
    |(runCalls calls ⟨pid, zeroStatics⟩).st.AvgGyro ax| ≤ 16 * 32768 ∧
      (0 < (runCalls calls ⟨pid, zeroStatics⟩).st.time_skip ax →
        |(runCalls calls ⟨pid, zeroStatics⟩).st.AvgGyro ax| ≤
          32768 * (runCalls calls ⟨pid, zeroStatics⟩).st.time_skip ax) ∧
      (∀ env, 0 < toInt8 ((runCalls calls ⟨pid, zeroStatics⟩).st.time_skip ax + 1) →
        (accumulate ax env (runCalls calls ⟨pid, zeroStatics⟩).st).AvgGyro ax =
          (if (runCalls calls ⟨pid, zeroStatics⟩).st.time_skip ax = 0 then 0
            else (runCalls calls ⟨pid, zeroStatics⟩).st.AvgGyro ax) + chop ax env) := by
  obtain ⟨h1, h2, h3, h4, h5, -, -, -⟩ :=
    runCalls_keeps_AccInv calls ⟨pid, zeroStatics⟩ ax (AccInv_zeroStatics ax)
  refine ⟨abs_le.2 ⟨by omega, by omega⟩, fun hp => ?_, fun env hpos => ?_⟩
  · obtain ⟨a1, a2, -⟩ := h5 hp
    exact abs_le.2 ⟨by omega, by omega⟩
  · have hc := chop_range ax env
    rw [accumulate_AvgGyro, if_pos hpos]
    apply toInt32_of_range <;> split_ifs <;> omega

/-- C17, as stated, fails: after the initialisation pass and 141 unblocked ticks on roll
with gyro reading 128, the last tick has evaluated the window and reset `time_skip[roll]`
to 0, and `AvgGyro[roll]` holds the average 128, not 0. -/
theorem accumulator_after_evaluation_counterexample :
    completesWindow Axis.roll (gyroEnv 128)
        (runAxis Axis.roll (List.replicate 140 (gyroEnv 128))
          (calculate_Gtune true Axis.roll quietEnv ⟨defaultProfile 20, zeroStatics⟩)) ∧
      (runAxis Axis.roll (List.replicate 141 (gyroEnv 128))
        (calculate_Gtune true Axis.roll quietEnv
          ⟨defaultProfile 20, zeroStatics⟩)).st.time_skip Axis.roll = 0 ∧
      (runAxis Axis.roll (List.replicate 141 (gyroEnv 128))
        (calculate_Gtune true Axis.roll quietEnv
          ⟨defaultProfile 20, zeroStatics⟩)).st.AvgGyro Axis.roll = 128 ∧
      ¬ (runAxis Axis.roll (List.replicate 141 (gyroEnv 128))
        (calculate_Gtune true Axis.roll quietEnv
          ⟨defaultProfile 20, zeroStatics⟩)).st.AvgGyro Axis.roll = 0 := by
  have hb := blocked_gyroEnv 128 Axis.roll
  have hts : (calculate_Gtune true Axis.roll quietEnv
      ⟨defaultProfile 20, zeroStatics⟩).st.time_skip Axis.roll = -125 := by decide
  have h125 := cadence_time_skip Axis.roll _ hts (List.replicate 125 (gyroEnv 128))
    (replicate_unblocked hb 125)
  rw [List.length_replicate, if_pos (by decide)] at h125
  have h0 : (runAxis Axis.roll (List.replicate 125 (gyroEnv 128))
      (calculate_Gtune true Axis.roll quietEnv
        ⟨defaultProfile 20, zeroStatics⟩)).st.time_skip Axis.roll = 0 := by
    rw [h125]; decide
  obtain ⟨k1, k2, -⟩ := window_close Axis.roll _ h0 (List.replicate 15 (gyroEnv 128))
    (replicate_unblocked hb 15) (by simp) (gyroEnv 128) hb
  rw [← runAxis_append, List.append_replicate_replicate] at k1 k2
  have hs : chopSum Axis.roll (List.replicate 15 (gyroEnv 128) ++ [gyroEnv 128]) = 2048 := by
    decide
  obtain ⟨m1, m2⟩ := tick_completes_entries k1
  have hv : toInt32 ((2048 : Int).tdiv 16) = 128 := by decide
  rw [k2, hs, hv] at m2
  have e141 : List.replicate 141 (gyroEnv 128) =
      List.replicate 140 (gyroEnv 128) ++ [gyroEnv 128] := List.replicate_succ' 140 (gyroEnv 128)
  have e140 : List.replicate (125 + 15) (gyroEnv 128) = List.replicate 140 (gyroEnv 128) := rfl
  rw [e140] at k1 m1 m2
  rw [e141, runAxis_snoc]
  exact ⟨k1, m1, m2, by rw [m2]; decide⟩

/-- C17, amended: the tick that evaluates a window leaves `time_skip[ax] = 0` and the
window's average (the accumulated sum divided by 16) in `AvgGyro[ax]`; the accumulator is
cleared at the start of the next unblocked tick, which leaves `time_skip[ax] = 1` and
exactly its own quantised sample in `AvgGyro[ax]`. -/
theorem accumulator_after_evaluation (ax : Axis) (env : Env) (w : World)
    (hc : completesWindow ax env w) :
    (calculate_Gtune false ax env w).st.time_skip ax = 0 ∧
      (calculate_Gtune false ax env w).st.AvgGyro ax =
        toInt32 (((accumulate ax env w.st).AvgGyro ax).tdiv 16) ∧
      (∀ env2, blocked env2 ax = false →
        (calculate_Gtune false ax env2 (calculate_Gtune false ax env w)).st.time_skip ax = 1 ∧
          (calculate_Gtune false ax env2 (calculate_Gtune false ax env w)).st.AvgGyro ax =
            chop ax env2) := by
  obtain ⟨h1, h2⟩ := tick_completes_entries hc
  exact ⟨h1, h2, fun env2 hb => tick_starts_window h1 hb⟩

/-- Witness of C17 (amended): roll one tick before the end of a window with accumulated
sum 1920: the evaluation leaves the average 120 in the accumulator, and the next tick
with reading 300 leaves its quantised sample 256. -/
theorem accumulator_after_evaluation_witness :
    (calculate_Gtune false Axis.roll quietEnv
        ⟨defaultProfile 20, lateWindow 1920 50 1280⟩).st.time_skip Axis.roll = 0 ∧
      (calculate_Gtune false Axis.roll quietEnv
        ⟨defaultProfile 20, lateWindow 1920 50 1280⟩).st.AvgGyro Axis.roll = 120 ∧
      (calculate_Gtune false Axis.roll (gyroEnv 300) (calculate_Gtune false Axis.roll quietEnv
        ⟨defaultProfile 20, lateWindow 1920 50 1280⟩)).st.AvgGyro Axis.roll = 256 := by
  obtain ⟨h1, h2, h3⟩ := accumulator_after_evaluation Axis.roll quietEnv
    ⟨defaultProfile 20, lateWindow 1920 50 1280⟩ (by unfold completesWindow; decide)
  obtain ⟨-, h4⟩ := h3 (gyroEnv 300) (blocked_gyroEnv 300 Axis.roll)
  refine ⟨h1, ?_, ?_⟩
  · rw [h2]; decide
  · rw [h4]; decide

/-- C18: a window of 16 unblocked ticks started in a reachable state with
`time_skip[ax] = 0` accumulates 128 (yaw: 32) times the sum of the truncated quotients
`s_i / 128` (yaw: `s_i / 32`); the division by 16 is exact and leaves 8 (yaw: 2) times
that sum in `AvgGyro[ax]`; the window error and `diff_G` are multiples of 8 (yaw: 2), and
on roll and pitch the error is never 5, 50 or 70. -/
theorem quantised_window (pid : pidProfile_t) (calls : List (Bool × Axis × Env)) (ax : Axis)
    (envs : List Env) (e : Env)
    (h0 : (runCalls calls ⟨pid, zeroStatics⟩).st.time_skip ax = 0)
    (hub : ∀ e' ∈ envs, blocked e' ax = false) (hlen : envs.length = 15)
    (he : blocked e ax = false) :
    completesWindow ax e (runAxis ax envs (runCalls calls ⟨pid, zeroStatics⟩)) ∧
      (accumulate ax e (runAxis ax envs (runCalls calls ⟨pid, zeroStatics⟩)).st).AvgGyro ax =
        (if ax = Axis.yaw then 32 else 128) * ((envs ++ [e]).map (quant ax)).sum ∧
      (calculate_Gtune false ax e
          (runAxis ax envs (runCalls calls ⟨pid, zeroStatics⟩))).st.AvgGyro ax =
        (if ax = Axis.yaw then 2 else 8) * ((envs ++ [e]).map (quant ax)).sum ∧
      16 * (calculate_Gtune false ax e
          (runAxis ax envs (runCalls calls ⟨pid, zeroStatics⟩))).st.AvgGyro ax =
        (accumulate ax e (runAxis ax envs (runCalls calls ⟨pid, zeroStatics⟩)).st).AvgGyro ax ∧
      windowError ax e (runAxis ax envs (runCalls calls ⟨pid, zeroStatics⟩)) %
        (if ax = Axis.yaw then 2 else 8) = 0 ∧
      diffG (windowError ax e (runAxis ax envs (runCalls calls ⟨pid, zeroStatics⟩)))
          ((runAxis ax envs (runCalls calls ⟨pid, zeroStatics⟩)).st.OldError ax) %
        (if ax = Axis.yaw then 2 else 8) = 0 ∧
      (ax ≠ Axis.yaw →
        windowError ax e (runAxis ax envs (runCalls calls ⟨pid, zeroStatics⟩)) ≠ 5 ∧
        windowError ax e (runAxis ax envs (runCalls calls ⟨pid, zeroStatics⟩)) ≠ 50 ∧
        windowError ax e (runAxis ax envs (runCalls calls ⟨pid, zeroStatics⟩)) ≠ 70) := by
  obtain ⟨-, -, -, -, -, -, -, hold⟩ :=
    runCalls_keeps_AccInv calls ⟨pid, zeroStatics⟩ ax (AccInv_zeroStatics ax)
  obtain ⟨-, -, i3, -, -⟩ := window_progress ax _ h0 envs hub (by omega)
  obtain ⟨k1, k2, k3⟩ := window_close ax _ h0 envs hub hlen e he
  obtain ⟨-, m2⟩ := tick_completes_entries k1
  have hr := chopSum_range ax (envs ++ [e])
  simp only [List.length_append, List.length_singleton, hlen] at hr
  rw [i3, k3, m2, k2, tdiv_cases _ _ (by norm_num)]
  rw [chopSum_eq_grain_mul] at hr ⊢
  unfold diffG ABS
  rcases grain_cases ax with ⟨hax, hg⟩ | ⟨hax, hg⟩
  · rw [hg] at hr ⊢
    rw [((errorOf_cases ax _).resolve_right (fun h => h.1 hax)).2]
    rw [if_pos hax] at hold ⊢
    unfold toInt16 toInt32
    refine ⟨k1, rfl, ?_, ?_, ?_, ?_, fun h => absurd hax h⟩ <;> split_ifs <;> omega
  · rw [hg] at hr ⊢
    rw [((errorOf_cases ax _).resolve_left (fun h => hax h.1)).2]
    rw [if_neg hax] at hold ⊢
    unfold toInt16 toInt32
    refine ⟨k1, rfl, ?_, ?_, ?_, ?_, fun _ => ⟨?_, ?_, ?_⟩⟩ <;> split_ifs <;> omega

/-- Witness of C18: the first window after program start, 16 ticks on roll with gyro
reading 300, accumulates `128 * 32` and leaves the average `8 * 32 = 256`. -/
theorem quantised_window_witness :
    completesWindow Axis.roll (gyroEnv 300)
        (runAxis Axis.roll (List.replicate 15 (gyroEnv 300))
          (runCalls [] ⟨defaultProfile 20, zeroStatics⟩)) ∧
      (calculate_Gtune false Axis.roll (gyroEnv 300)
          (runAxis Axis.roll (List.replicate 15 (gyroEnv 300))
            (runCalls [] ⟨defaultProfile 20, zeroStatics⟩))).st.AvgGyro Axis.roll = 256 := by
  obtain ⟨h1, -, h3, -⟩ := quantised_window (defaultProfile 20) [] Axis.roll
    (List.replicate 15 (gyroEnv 300)) (gyroEnv 300) rfl
    (replicate_unblocked (blocked_gyroEnv 300 Axis.roll) 15) (by simp)
    (blocked_gyroEnv 300 Axis.roll)
  refine ⟨h1, ?_⟩
  rw [h3]
  decide

/-- C19: for `int16_t` `error` and `OldError`, both non-zero, `|error| - |OldError|` lies
in `[-32767, 32767]` and is what `diff_G` stores; for `result_P64` in `[0, 255*64]` and a
`uint8_t` `gtune_pwr` the three stepped values lie in the `int16_t` range, so the step of
lines 145-160 equals the step computed without any 16-bit reduction; and every state
reached from an initialisation pass has `result_P64` in `[0, 255*64]`. -/
theorem adjuster_arithmetic_exact (ax : Axis) (error old p64 : Int) (pwr : Nat)
    (he : -32768 ≤ error ∧ error ≤ 32767) (ho : -32768 ≤ old ∧ old ≤ 32767)
    (he0 : error ≠ 0) (ho0 : old ≠ 0) (hp : 0 ≤ p64 ∧ p64 ≤ 255 * 64) (hpwr : pwr < 256) :
    (-32767 ≤ |error| - |old| ∧ |error| - |old| ≤ 32767) ∧
      diffG error old = |error| - |old| ∧
      (-32768 ≤ p64 + 64 + (pwr : Int) ∧ p64 + 64 + (pwr : Int) ≤ 32767) ∧
      (-32768 ≤ p64 - (64 + (pwr : Int)) ∧ p64 - (64 + (pwr : Int)) ≤ 32767) ∧
      (-32768 ≤ p64 - 32 ∧ p64 - 32 ≤ 32767) ∧
      stepP64 ax pwr error old p64 =
        (if (error > 0 ∧ old > 0) ∨ (error < 0 ∧ old < 0) then
          if |error| - |old| > (if ax = Axis.yaw then 20 else 10) then p64 + (64 + (pwr : Int))
          else if |error| - |old| < -(if ax = Axis.yaw then 20 else 10) then
            if ax = Axis.yaw then p64 - (64 + (pwr : Int)) else p64 - 32
          else p64
        else
          if |(|error| - |old|)| > (if ax = Axis.yaw then 20 else 10) ∧ ax ≠ Axis.yaw
          then p64 - 32 else p64) ∧
      (∀ (ax0 : Axis) (env0 : Env) (w0 : World), w0.pid.inRange →
        ∀ (calls : List (Bool × Axis × Env)) (i : Axis),
          0 ≤ (runCalls calls (calculate_Gtune true ax0 env0 w0)).st.result_P64 i ∧
            (runCalls calls (calculate_Gtune true ax0 env0 w0)).st.result_P64 i ≤ 255 * 64) := by
  refine ⟨abs_diff_range he ho he0 ho0, diffG_eq he ho ho0, by omega, by omega, by omega,
    stepP64_exact ax pwr error old p64 he ho ho0 hp hpwr, ?_⟩
  intro ax0 env0 w0 hr calls i
  have hcall : calculate_Gtune true ax0 env0 w0 = initRun env0 w0 := rfl
  rw [hcall]
  obtain ⟨k1, k2, -⟩ := (runCalls_keeps_GainInv calls _ (initRun_GainInv env0 w0 hr)).2 i
  exact ⟨k1, k2⟩

/-- Witness of C19: the extreme errors -32768 and 1 with the largest gain and strength on
yaw; `diff_G` is 32767 and the step adds `64 + 255` without wrapping. -/
theorem adjuster_arithmetic_exact_witness :
    diffG (-32768) (-1) = 32767 ∧ stepP64 Axis.yaw 255 (-32768) (-1) (255 * 64) = 16639 := by
  obtain ⟨-, h2, -, -, -, h6, -⟩ := adjuster_arithmetic_exact Axis.yaw (-32768) (-1) (255 * 64) 255
    (by decide) (by decide) (by decide) (by decide) (by decide) (by decide)
  refine ⟨?_, ?_⟩
  · rw [h2]; decide
  · rw [h6]
    simp

/-- C20: from any state, after a blocked steady-state tick on `ax`, the next 156
steady-state ticks on `ax` (blocked or not, with any samples) leave `result_P64[ax]` and
`P8[ax]` as they were; and 156 is the best bound: there is a run of 157 unblocked ticks
after a blocked one whose last tick changes both. -/
theorem settle_time (ax : Axis) (w : World) (eb : Env) (hb : blocked eb ax = true)
    (envs : List Env) (hlen : envs.length ≤ 156) :
    ((runAxis ax envs (calculate_Gtune false ax eb w)).st.result_P64 ax = w.st.result_P64 ax ∧
        (runAxis ax envs (calculate_Gtune false ax eb w)).pid.P8 ax = w.pid.P8 ax) ∧
      (∃ (w' : World) (eb' : Env) (envs' : List Env),
        blocked eb' Axis.roll = true ∧ envs'.length = 157 ∧
          (∀ e ∈ envs', blocked e Axis.roll = false) ∧
          (runAxis Axis.roll envs' (calculate_Gtune false Axis.roll eb' w')).st.result_P64
              Axis.roll ≠ w'.st.result_P64 Axis.roll ∧
          (runAxis Axis.roll envs' (calculate_Gtune false Axis.roll eb' w')).pid.P8
              Axis.roll ≠ w'.pid.P8 Axis.roll) := by
  constructor
  · rw [tick_blocked w hb]
    obtain ⟨h1, h2⟩ := settle_run ax envs (blockReset ax w) 0 (blockReset_SettleInv ax w)
      (by omega)
    rw [h1, h2]
    exact ⟨rfl, rfl⟩
  · refine ⟨⟨defaultProfile 20, lateWindow 0 0 1280⟩, stickEnv, settleRun,
      blocked_stickEnv Axis.roll, settleRun_length, settleRun_unblocked, ?_, ?_⟩
    · rw [settleRun_changes_gain.1]
      decide
    · rw [settleRun_changes_gain.2]
      decide

/-- Witness of C20: roll blocked by a deflected stick, then 156 quiet ticks. -/
theorem settle_time_witness :
    (runAxis Axis.roll (List.replicate 156 quietEnv)
        (calculate_Gtune false Axis.roll stickEnv
          ⟨defaultProfile 20, lateWindow 1120 50 1280⟩)).st.result_P64 Axis.roll =
        (lateWindow 1120 50 1280).result_P64 Axis.roll ∧
      (runAxis Axis.roll (List.replicate 156 quietEnv)
        (calculate_Gtune false Axis.roll stickEnv
          ⟨defaultProfile 20, lateWindow 1120 50 1280⟩)).pid.P8 Axis.roll =
        (defaultProfile 20).P8 Axis.roll :=
  (settle_time Axis.roll ⟨defaultProfile 20, lateWindow 1120 50 1280⟩ stickEnv
    (blocked_stickEnv Axis.roll) (List.replicate 156 quietEnv) (by simp)).1

end GTune
